import Mathlib

/-!
eINK-click: SSD16xx protocol driver and EPD pixel compositor.

Shallow embedding of `src/ssd16xx/ssd16xx.cpp`, `src/ssd16xx/ssd1606.hpp` and
`src/epd.cpp`.

* Calls into the ChibiOS HAL (`pal*`, `spi*`, `chThdSleepMilliseconds`) are
  recorded as events; a run of a driver routine is the list of HAL calls it
  makes, in order.
* `uint8_t` / `uint16_t` values are natural numbers, truncated with `% 256` /
  `% 65536` where the source converts; arithmetic on promoted operands is done
  in `Int` (every intermediate value fits the 32-bit `int` of the target).
* `osalDbgAssert` is a fatal check: a run that fails it stops there.
-/

namespace EInk

/-! ## HAL events and runs -/

/-- The three GPIO lines held by the driver (`_rstLine`, `_busyLine`, `_dcLine`). -/
inductive Line where
  | rst
  | busy
  | dc
  deriving DecidableEq, Repr

/-- One call into the HAL. `spiSend bytes` is `spiSend(_spi, n, buf)` with the `n`
bytes of `buf`; `palReadLine l high` records the level that the read returned. -/
inductive Event where
  | palSetLineMode (l : Line)
  | palClearLine (l : Line)
  | palSetLine (l : Line)
  | palReadLine (l : Line) (high : Bool)
  | chThdSleepMilliseconds (ms : Nat)
  | spiAcquireBus
  | spiReleaseBus
  | spiStart
  | spiStop
  | spiSelect
  | spiUnselect
  | spiSend (bytes : List Nat)
  deriving DecidableEq, Repr

/-- Outcome of running a driver routine: the HAL calls made so far and the returned
value, `none` when the run stopped at a failed fatal check. -/
structure Run (α : Type) where
  trace : List Event
  val : Option α
  deriving DecidableEq, Repr

/-- Sequencing of runs: nothing is executed after a failed fatal check. -/
def Run.bind {α β : Type} (r : Run α) (f : α → Run β) : Run β :=
  match r.val with
  | none => ⟨r.trace, none⟩
  | some a => ⟨r.trace ++ (f a).trace, (f a).val⟩

instance : Monad Run where
  pure a := ⟨[], some a⟩
  bind := Run.bind

/-- A single HAL call. -/
def emit (e : Event) : Run Unit := ⟨[e], some ()⟩

/-- Modelled from the spec: `osalDbgAssert` / `osalDbgCheck` (ChibiOS OSAL, not part of
the repository) is a fatal check that aborts immediately when its condition is false. -/
def osalDbgAssert (c : Bool) : Run Unit := ⟨[], if c then some () else none⟩

/-! ## `SSD16xx` -/

/-- Register addresses used by the driver (`SSD16xx::Command`). -/
def SSD16xx_DPSLP : Nat := 0x10
def SSD16xx_DEMDS : Nat := 0x11
def SSD16xx_ADPUPDSC : Nat := 0x20
def SSD16xx_DUPCTRL2 : Nat := 0x22
def SSD16xx_RAMWR : Nat := 0x24
def SSD16xx_WVCOMREG : Nat := 0x2C
def SSD16xx_WLUTREG : Nat := 0x32
def SSD16xx_VBDSET : Nat := 0x3C
def SSD16xx_RASTXSE : Nat := 0x44
def SSD16xx_RASTYSE : Nat := 0x45
def SSD16xx_RASTXAC : Nat := 0x4E
def SSD16xx_RASTYAC : Nat := 0x4F

/-- A concrete driver: the pure virtual members `sources()`, `gates()` and
`sendLUTData()` of `SSD16xx`, together with the build-time HAL switch
`SPI_USE_MUTUAL_EXCLUSION` (defined in the HAL configuration, outside the repository).
`sources()` and `gates()` return `uint16_t`. -/
structure SSD16xx where
  sources : Nat
  gates : Nat
  sendLUTData : Run Unit
  mutualExclusion : Bool
  sources_u16 : sources < 65536
  gates_u16 : gates < 65536

namespace SSD16xx

/-- Embedding of `SSD16xx::sendCmd`. -/
def sendCmd (c : Nat) : Run Unit := do
  emit (.palClearLine .dc)
  emit (.spiSend [c])
  emit (.palSetLine .dc)

/-- Embedding of `SSD16xx::sendData(uint8_t)`: the argument is converted to `uint8_t`. -/
def sendData (b : Nat) : Run Unit :=
  emit (.spiSend [b % 256])

/-- Embedding of `SSD16xx::sendData(const uint8_t*, size_t)`. -/
def sendDataBuf (bp : List Nat) : Run Unit :=
  emit (.spiSend bp)

/-- Embedding of `SSD16xx::select`. -/
def select (s : SSD16xx) : Run Unit := do
  if s.mutualExclusion then
    emit .spiAcquireBus
    emit .spiStart
  emit .spiSelect

/-- Embedding of `SSD16xx::unselect`. -/
def unselect (s : SSD16xx) : Run Unit := do
  emit .spiUnselect
  if s.mutualExclusion then
    emit .spiReleaseBus

/-- Embedding of `SSD16xx::start`. -/
def start (s : SSD16xx) : Run Unit := do
  emit (.palSetLineMode .dc)
  emit (.palClearLine .rst)
  emit (.chThdSleepMilliseconds 10)
  emit (.palSetLine .rst)
  emit (.chThdSleepMilliseconds 10)
  if s.mutualExclusion then
    emit .spiAcquireBus
  emit .spiStart
  emit .spiSelect
  sendCmd SSD16xx_DEMDS
  sendData 0x01
  sendCmd SSD16xx_WVCOMREG
  sendData 0xA0
  sendCmd SSD16xx_VBDSET
  sendData 0x63
  sendCmd SSD16xx_DUPCTRL2
  sendData 0xC4
  sendCmd SSD16xx_WLUTREG
  s.sendLUTData
  emit .spiUnselect
  if s.mutualExclusion then
    emit .spiReleaseBus

/-- Embedding of `SSD16xx::stop`. -/
def stop (s : SSD16xx) : Run Unit := do
  if s.mutualExclusion then
    emit .spiAcquireBus
    emit .spiStart
  emit .spiSelect
  sendCmd SSD16xx_DUPCTRL2
  sendData 0x03
  sendCmd SSD16xx_DPSLP
  sendData 0x01
  emit .spiUnselect
  emit .spiStop
  if s.mutualExclusion then
    emit .spiReleaseBus

/-- The loop `while (palReadLine(_busyLine) == PAL_HIGH) chThdSleepMilliseconds(10);`
of `SSD16xx::update`. `busy i` is the level returned by the `i`-th read of the busy
line; the result is `none` when the line is still high after `fuel` reads. -/
def waitReady (busy : Nat → Bool) : Nat → Nat → Option (List Event)
  | 0, _ => none
  | fuel + 1, i =>
    if busy i then
      (waitReady busy fuel (i + 1)).map
        (fun t => Event.palReadLine .busy true :: Event.chThdSleepMilliseconds 10 :: t)
    else
      some [Event.palReadLine .busy false]

/-- The part of `SSD16xx::update` before the wait loop. -/
def updateCmd (s : SSD16xx) : Run Unit := do
  if s.mutualExclusion then
    emit .spiAcquireBus
    emit .spiStart
  emit .spiSelect
  sendCmd SSD16xx_ADPUPDSC
  emit .spiUnselect
  if s.mutualExclusion then
    emit .spiReleaseBus

/-- Embedding of `SSD16xx::update`: the HAL calls of one call, `none` when the busy line is still
high after `fuel` reads. -/
def update (s : SSD16xx) (busy : Nat → Bool) (fuel : Nat) : Option (List Event) :=
  (waitReady busy fuel 0).map (fun t => (updateCmd s).trace ++ t)

/-- Embedding of `SSD16xx::setAddress(uint8_t xsa, uint8_t xea, uint16_t ysa, uint16_t yea)`.
The arguments are the already converted parameter values. -/
def setAddress (s : SSD16xx) (xsa xea ysa yea : Nat) : Run Unit := do
  osalDbgAssert (decide (xsa < s.sources >>> 2) && decide (xea < s.sources >>> 2) &&
    decide (ysa < s.gates) && decide (yea < s.gates))
  sendCmd SSD16xx_RASTXSE
  sendData xsa
  sendData xea
  sendCmd SSD16xx_RASTYSE
  sendData ysa
  if s.gates > 0xFF then
    sendData (ysa >>> 8)
  sendData yea
  if s.gates > 0xFF then
    sendData (yea >>> 8)
  sendCmd SSD16xx_RASTXAC
  sendData xsa
  sendCmd SSD16xx_RASTYAC
  sendData ysa
  if s.gates > 0xFF then
    sendData (yea >>> 8)
  sendCmd SSD16xx_RAMWR

end SSD16xx

/-- The waveform table `LUTData` of `SSD1606::sendLUTData`. -/
def SSD1606.LUTData : List Nat :=
  [0x82,0x00,0x00,0x00,
   0xAA,0x00,0x00,0x00,
   0xAA,0xAA,0x00,0x00,
   0xAA,0xAA,0xAA,0x00,
   0x55,0xAA,0xAA,0x00,
   0x55,0x55,0x55,0x55,
   0xAA,0xAA,0xAA,0xAA,
   0x55,0x55,0x55,0x55,
   0xAA,0xAA,0xAA,0xAA,
   0x15,0x15,0x15,0x15,
   0x05,0x05,0x05,0x05,
   0x01,0x01,0x01,0x01,
   0x00,0x00,0x00,0x00,
   0x00,0x00,0x00,0x00,
   0x00,0x00,0x00,0x00,
   0x00,0x00,0x00,0x00,
   0x00,0x00,0x00,0x00,
   0x00,0x00,0x00,0x00,
   0x00,0x00,0x00,0x00,
   0x00,0x00,0x00,0x00,
   0x41,0x45,0xF1,0xFF,0x5F,0x55,0x01,0x00,
   0x00,0x00]

/-- The `SSD1606` driver: 72 sources, 172 gates, and its waveform table sent in one
`sendData(LUTData, sizeof(LUTData))`. -/
def SSD1606 (mutualExclusion : Bool) : SSD16xx where
  sources := 72
  gates := 172
  sendLUTData := SSD16xx.sendDataBuf SSD1606.LUTData
  mutualExclusion := mutualExclusion
  sources_u16 := by decide
  gates_u16 := by decide

/-! ## `EPD` -/

/-- Embedding of `EPD::Color`: the four grayscale levels. -/
inductive Color where
  | black
  | darkGray
  | lightGray
  | white
  deriving DecidableEq, Repr

/-- Numeric value of an `EPD::Color` enumerator. -/
def Color.val : Color → Nat
  | .black => 0
  | .darkGray => 1
  | .lightGray => 2
  | .white => 3

/-- Embedding of `EPD::BmpFnc`: `bool(uint16_t width, uint16_t height, uint16_t w, uint16_t h)`. -/
abbrev BmpFnc := Nat → Nat → Nat → Nat → Bool

/-- Field `first_char` of the packed `FontHeader` at the start of a font image
(little-endian `uint16_t` at byte 2). -/
def Font.first_char (bp : List Nat) : Nat := bp.getD 2 0 + 256 * bp.getD 3 0

/-- Field `last_char` of the `FontHeader` (little-endian `uint16_t` at byte 4). -/
def Font.last_char (bp : List Nat) : Nat := bp.getD 4 0 + 256 * bp.getD 5 0

/-- Field `height` of the `FontHeader` (byte 6). -/
def Font.height (bp : List Nat) : Nat := bp.getD 6 0

/-- The members of `EPD`: `_ssd`, `_width`, `_height`, the font image `_fntp` points
to, and `_bkgColor`. -/
structure EPD where
  ssd : SSD16xx
  width : Nat
  height : Nat
  fntp : List Nat
  bkgColor : Color

/-- The address window `(xsa, xea, ysa, yea)` handed to `SSD16xx::setAddress`. -/
structure Window where
  xsa : Nat
  xea : Nat
  ysa : Nat
  yea : Nat
  deriving DecidableEq, Repr

/-- The byte `(c << 6) | (c << 4) | (c << 2) | (c << 0)` stored into a `uint8_t`. -/
def packColor (c : Color) : Nat :=
  ((c.val <<< 6) ||| (c.val <<< 4) ||| (c.val <<< 2) ||| (c.val <<< 0)) % 256

/-- Bit position `(3 - ((h + y) & 0x03)) << 1` of the 2-bit slot of row `h + y`. -/
def slotShift (h y : Nat) : Nat := (3 - ((h + y) &&& 0x03)) <<< 1

/-- The call `sendData(b)` repeated `n` times. -/
def sendRepeat (b : Nat) : Nat → Run Unit
  | 0 => pure ()
  | n + 1 => do
    SSD16xx.sendData b
    sendRepeat b n

namespace EPD

/-- Embedding of `EPD::setBkgColor`. -/
def setBkgColor (e : EPD) (color : Color) : EPD := { e with bkgColor := color }

/-- Embedding of `EPD::setFont` (for a non-null font image). -/
def setFont (e : EPD) (bp : List Nat) : Run EPD := do
  osalDbgAssert (decide (Font.first_char bp ≤ Font.last_char bp) &&
    decide (Font.height bp ≤ e.height))
  pure { e with fntp := bp }

/-- Embedding of `EPD::EPD`: the constructor, `width` and `height` being `uint16_t` values. -/
def new (ssd : SSD16xx) (width height : Nat) (fntp : List Nat) : Run EPD := do
  osalDbgAssert (decide (width ≤ ssd.gates) && decide (height ≤ ssd.sources))
  let e ← setFont ⟨ssd, width, height, [], .white⟩ fntp
  pure (e.setBkgColor .white)

/-- Embedding of `EPD::start`. -/
def start (e : EPD) : Run Unit := e.ssd.start

/-- Embedding of `EPD::stop`. -/
def stop (e : EPD) : Run Unit := e.ssd.stop

/-- Embedding of `EPD::updateDisplay`. -/
def updateDisplay (e : EPD) (busy : Nat → Bool) (fuel : Nat) : Option (List Event) :=
  e.ssd.update busy fuel

/-- The window `fillDisplay` requests: `setAddress(0, (_height >> 2) - 1, _width - 1, 0)`
with the `int` arguments converted to `uint8_t` / `uint16_t`. -/
def fillWindow (e : EPD) : Window where
  xsa := 0
  xea := ((((e.height >>> 2 : Nat) : Int) - 1) % 256).toNat
  ysa := (((e.width : Int) - 1) % 65536).toNat
  yea := 0

/-- Embedding of `EPD::fillDisplay`. The loop bound is `uint32_t(_width * (_height >> 2))`. -/
def fillDisplay (e : EPD) (color : Color) : Run Unit := do
  let b := packColor color
  e.ssd.select
  e.ssd.setAddress e.fillWindow.xsa e.fillWindow.xea e.fillWindow.ysa e.fillWindow.yea
  sendRepeat b ((e.width * (e.height >>> 2)) % 4294967296)
  e.ssd.unselect

/-- The locals `xsa`, `xea`, `ysa`, `yea` of `EPD::drawBitmap`: `int` expressions
stored into `uint8_t` / `uint16_t`. -/
def window (e : EPD) (x y width height : Nat) : Window where
  xsa := (y >>> 2) % 256
  xea := (((((y + height + 3) >>> 2 : Nat) : Int) - 1) % 256).toNat
  ysa := (((e.width : Int) - 1 - (x : Int)) % 65536).toNat
  yea := (((e.width : Int) - 1 - ((x : Int) - 1 + (width : Int))) % 65536).toNat

/-- Inner loop of `EPD::drawBitmap` (`for (uint16_t h = 0; h < height; h++)`), entered
at row `h` with `n = height - h` rows left and the current value of `b`; returns the
value of `b` after the loop. `~(0x03 << s)` is taken on the low 8 bits, which is all
that the `uint8_t` assignment keeps. -/
def rowLoop (e : EPD) (color : Color) (y width height : Nat) (bmpFnc : BmpFnc) (w : Nat) :
    Nat → Nat → Nat → Run Nat
  | 0, _, b => pure b
  | n + 1, h, b => do
    let b1 :=
      if bmpFnc width height w h then
        (((b &&& (0xFF ^^^ (0x03 <<< slotShift h y))) % 256) |||
          (color.val <<< slotShift h y)) % 256
      else b
    if ((h + y) &&& 0x03) == 0x03 || h == height - 1 then
      SSD16xx.sendData b1
      rowLoop e color y width height bmpFnc w n (h + 1) (packColor e.bkgColor)
    else
      rowLoop e color y width height bmpFnc w n (h + 1) b1

/-- Outer loop of `EPD::drawBitmap` (`for (uint16_t w = 0; w < width; w++)`), entered at
column `w` with `n = width - w` columns left. -/
def colLoop (e : EPD) (color : Color) (y width height : Nat) (bmpFnc : BmpFnc) :
    Nat → Nat → Nat → Run Nat
  | 0, _, b => pure b
  | n + 1, w, b => do
    let b1 ← rowLoop e color y width height bmpFnc w height 0 b
    colLoop e color y width height bmpFnc n (w + 1) b1

/-- Embedding of `EPD::drawBitmap`. -/
def drawBitmap (e : EPD) (color : Color) (x y width height : Nat) (bmpFnc : BmpFnc) :
    Run Unit := do
  let win := e.window x y width height
  let b := packColor e.bkgColor
  e.ssd.select
  e.ssd.setAddress win.xsa win.xea win.ysa win.yea
  let _ ← colLoop e color y width height bmpFnc width 0 b
  e.ssd.unselect

/-- Embedding of `EPD::drawFilledRect`. -/
def drawFilledRect (e : EPD) (color : Color) (x y width height : Nat) : Run Unit :=
  e.drawBitmap color x y width height (fun _ _ _ _ => true)

end EPD

/-- A font image with glyph height 8 and the single glyph `'H'` (code 72) of width 6,
whose bitmap starts at byte offset 12. -/
def sampleFont : List Nat :=
  [0, 0, 72, 0, 72, 0, 8, 0,
   6, 12, 0, 0,
   0x21, 0x21, 0x21, 0x3F, 0x21, 0x21, 0x21, 0x00]

/-- The 172x72 panel on the SSD1606, as `EPD::EPD` leaves it. -/
def panel172x72 : EPD := ⟨SSD1606 false, 172, 72, sampleFont, .white⟩

/-- A font image with glyph height 4 and the single glyph `'H'` of width 1. -/
def tinyFont : List Nat :=
  [0, 0, 72, 0, 72, 0, 4, 0,
   1, 12, 0, 0,
   0x01, 0x01, 0x01, 0x01]

/-- A panel of width 0 and height 4 on the SSD1606, as `EPD::EPD` leaves it. -/
def panel0x4 : EPD := ⟨SSD1606 false, 0, 4, tinyFont, .white⟩

/-! ## Fonts and text -/

/-- Byte `i` of a font image (`const uint8_t*`). -/
def Font.byte (bp : List Nat) (i : Nat) : Nat := bp.getD i 0 % 256

/-- Field `width` (the low 8 bits of the packed 32-bit unit) of `char_table[i]`; the table
follows the 8-byte `FontHeader`. -/
def Font.charWidth (bp : List Nat) (i : Nat) : Nat := Font.byte bp (8 + 4 * i)

/-- Field `offset` (the upper 24 bits of the packed 32-bit unit, little-endian) of
`char_table[i]`. -/
def Font.charOffset (bp : List Nat) (i : Nat) : Nat :=
  Font.byte bp (8 + 4 * i + 1) + 256 * Font.byte bp (8 + 4 * i + 2) +
    65536 * Font.byte bp (8 + 4 * i + 3)

/-- The test `first_char <= *str && *str <= last_char`, on the `char` value promoted to
`int`. -/
def Font.inRange (bp : List Nat) (c : Int) : Bool :=
  decide ((Font.first_char bp : Int) ≤ c) && decide (c ≤ (Font.last_char bp : Int))

/-- The table index `*str - first_char` of an in-range character. -/
def Font.index (bp : List Nat) (c : Int) : Nat := (c - (Font.first_char bp : Int)).toNat

/-- Embedding of `EPD::Align`. -/
inductive Align where
  | left
  | center
  | right
  deriving DecidableEq, Repr

/-- The loop of `EPD::getTextWidth`. A C string is the list of its `char` values; it ends
at the first `0` in the list or at the end of the list. `width` is a `size_t` (32 bits on
the target). -/
def getTextWidthLoop (fntp : List Nat) : List Int → Nat → Nat
  | [], width => width
  | c :: str, width =>
    if c = 0 then width
    else if Font.inRange fntp c then
      getTextWidthLoop fntp str ((width + Font.charWidth fntp (Font.index fntp c)) % 4294967296)
    else
      getTextWidthLoop fntp str width

/-- The lambda `bmpFnc` of `EPD::drawText`, which captures `bp = _fntp + offset`:
`bool((bp[(h * ((width + 7) & 0xF8) + (w & 0xF8)) >> 3] >> (w & 0x07)) & 0x01)`. -/
def glyphFnc (fntp : List Nat) (offset : Nat) : BmpFnc := fun width _ w h =>
  ((Font.byte fntp (offset + ((h * ((width + 7) &&& 0xF8) + (w &&& 0xF8)) >>> 3)) >>>
    (w &&& 0x07)) &&& 0x01) != 0

namespace EPD

/-- Embedding of `EPD::getTextWidth`. -/
def getTextWidth (fntp : List Nat) (str : List Int) : Nat := getTextWidthLoop fntp str 0

/-- The loop `while (*str != 0)` of `EPD::drawText`, entered with the current `x`
(a `uint16_t`). -/
def textLoop (e : EPD) (color : Color) (y height : Nat) : List Int → Nat → Run Unit
  | [], _ => pure ()
  | c :: str, x =>
    if c = 0 then pure ()
    else if Font.inRange e.fntp c then
      if x + Font.charWidth e.fntp (Font.index e.fntp c) > e.width then pure ()
      else do
        e.drawBitmap color x y (Font.charWidth e.fntp (Font.index e.fntp c)) height
          (glyphFnc e.fntp (Font.charOffset e.fntp (Font.index e.fntp c)))
        textLoop e color y height str
          ((x + Font.charWidth e.fntp (Font.index e.fntp c)) % 65536)
    else
      textLoop e color y height str x

/-- The alignment `switch` of `EPD::drawText`: the new value of the `uint16_t` `x`. -/
def alignX (e : EPD) (x : Nat) (str : List Int) : Align → Nat
  | .center =>
    (x - (if x < (getTextWidth e.fntp str >>> 1) then x
      else (getTextWidth e.fntp str >>> 1))) % 65536
  | .right =>
    (x - (if x < getTextWidth e.fntp str then x else getTextWidth e.fntp str)) % 65536
  | .left => x

/-- Embedding of `EPD::drawText` (for a non-null string). No member of the object is
assigned, so the run has no state to return. -/
def drawText (e : EPD) (color : Color) (x y : Nat) (str : List Int) (align : Align) :
    Run Unit :=
  if y + Font.height e.fntp > e.height then pure ()
  else textLoop e color y (Font.height e.fntp) str (alignX e x str align)

end EPD

/-- One `drawBitmap` call of `drawText`: horizontal position, glyph width and the byte
offset of the glyph bitmap in the font image. -/
structure GlyphCall where
  x : Nat
  width : Nat
  offset : Nat
  deriving DecidableEq, Repr

/-- The program `drawBitmap(color, g.x, y, g.width, height, glyph bitmap of g)` for each
`g` of a list, in order. -/
def runCalls (e : EPD) (color : Color) (y height : Nat) : List GlyphCall → Run Unit
  | [] => pure ()
  | g :: rest => do
    e.drawBitmap color g.x y g.width height (glyphFnc e.fntp g.offset)
    runCalls e color y height rest

/-- Characters of a C string: the values before the first `0`. -/
def cstr (str : List Int) : List Int := str.takeWhile (fun c => c != 0)

/-- The characters of the text that lie in `[first_char, last_char]`, in text order,
each with its table width and table offset. -/
def textGlyphs (fntp : List Nat) (str : List Int) : List (Nat × Nat) :=
  ((cstr str).filter (Font.inRange fntp)).map
    (fun c => (Font.charWidth fntp (Font.index fntp c), Font.charOffset fntp (Font.index fntp c)))

/-- Sum of the table widths of the representable characters of the text. -/
def textWidth (fntp : List Nat) (str : List Int) : Nat :=
  ((textGlyphs fntp str).map Prod.fst).sum

/-- Left to right placement from position `x`: each glyph goes where the previous one
ended, and placement stops at the first glyph that would end beyond `panelWidth`. -/
def placeGlyphs (panelWidth : Nat) : Nat → List (Nat × Nat) → List GlyphCall
  | _, [] => []
  | x, g :: rest =>
    if x + g.1 ≤ panelWidth then ⟨x, g.1, g.2⟩ :: placeGlyphs panelWidth (x + g.1) rest
    else []

/-- Start position of aligned text of total width `T` (never below 0). -/
def alignStart (x T : Nat) : Align → Nat
  | .left => x
  | .center => x - T / 2
  | .right => x - T

/-- Display column `col` lies in the rectangle of one of the calls. -/
def covered (calls : List GlyphCall) (col : Nat) : Prop :=
  ∃ g ∈ calls, g.x ≤ col ∧ col < g.x + g.width

/-- A font image with glyph height 8 for the characters `'H'` (72) to `'i'` (105):
`'H'` has width 6 and `'i'` has width 3, the 32 characters between them have width 4. -/
def hiFont : List Nat :=
  [0, 0, 72, 0, 105, 0, 8, 0] ++
  [6, 144, 0, 0] ++
  ((List.range 32).map (fun i => [4, 152 + 8 * i, 0, 0])).flatten ++
  [3, 152, 1, 0] ++
  [0x21, 0x21, 0x21, 0x3F, 0x21, 0x21, 0x21, 0x00] ++
  ((List.range 32).map (fun _ => [0x0F, 0x09, 0x09, 0x09, 0x09, 0x09, 0x0F, 0x00])).flatten ++
  [0x02, 0x00, 0x02, 0x02, 0x02, 0x02, 0x02, 0x00]

/-- The 172x72 panel on the SSD1606 with `hiFont`, as `EPD::EPD` leaves it. -/
def hiPanel : EPD := ⟨SSD1606 false, 172, 72, hiFont, .white⟩

/-- A font image with glyph height 0 and the single glyph `'H'` of width 6. -/
def flatFont : List Nat :=
  [0, 0, 72, 0, 72, 0, 0, 0,
   6, 12, 0, 0]

/-- The 172x72 panel on the SSD1606 with `flatFont`, as `EPD::EPD` leaves it. -/
def flatPanel : EPD := ⟨SSD1606 false, 172, 72, flatFont, .white⟩

/-- A font image with glyph height 8 and the single glyph `'H'` of width 0. -/
def thinFont : List Nat :=
  [0, 0, 72, 0, 72, 0, 8, 0,
   0, 12, 0, 0]

/-- The 172x72 panel on the SSD1606 with `thinFont`, as `EPD::EPD` leaves it. -/
def thinPanel : EPD := ⟨SSD1606 false, 172, 72, thinFont, .white⟩

/-- A font image with glyph height 2 and the single glyph `'H'` of width 250 (32 bytes
per row): row 0 is blank, row 1 has its first pixel set. -/
def wideFont : List Nat :=
  [0, 0, 72, 0, 72, 0, 2, 0,
   250, 12, 0, 0] ++
  List.replicate 32 0 ++ [1] ++ List.replicate 31 0

/-- A driver with 240 sources and 320 gates and an empty waveform table; `setAddress`
sends the high bytes of the Y axis for such a driver. -/
def wideDriver : SSD16xx where
  sources := 240
  gates := 320
  sendLUTData := SSD16xx.sendDataBuf []
  mutualExclusion := false
  sources_u16 := by decide
  gates_u16 := by decide

/-- A 320x240 panel on `wideDriver` with `wideFont`, as `EPD::EPD` leaves it. -/
def widePanel : EPD := ⟨wideDriver, 320, 240, wideFont, .white⟩

/-! ## Observations on traces -/

/-- Position of a trace with respect to the chip-select bracket. -/
inductive Phase where
  | before
  | inside
  | after
  | bad
  deriving DecidableEq, Repr

/-- One step of the bracket check: `spiSelect` opens the bracket only once and only
when none is open, `spiUnselect` closes an open bracket, `spiSend` is allowed only
inside the bracket; any other HAL call is neutral. -/
def Phase.step : Phase → Event → Phase
  | .before, .spiSelect => .inside
  | .before, .spiUnselect => .bad
  | .before, .spiSend _ => .bad
  | .before, _ => .before
  | .inside, .spiSelect => .bad
  | .inside, .spiUnselect => .after
  | .inside, _ => .inside
  | .after, .spiSelect => .bad
  | .after, .spiUnselect => .bad
  | .after, .spiSend _ => .bad
  | .after, _ => .after
  | .bad, _ => .bad

/-- Phase reached at the end of a trace. `Phase.after` means: exactly one `spiSelect`,
followed later by exactly one `spiUnselect`, and every `spiSend` between the two. -/
def bracketPhase (t : List Event) : Phase := t.foldl Phase.step .before

/-- HAL calls that may occur inside a bracket without opening or closing one. -/
def Event.inner : Event → Bool
  | .spiSelect => false
  | .spiUnselect => false
  | _ => true

/-- HAL calls that touch neither the chip select nor the bus data. -/
def Event.passive : Event → Bool
  | .spiSelect => false
  | .spiUnselect => false
  | .spiSend _ => false
  | _ => true

/-- Decoding of the 2-bit slot `k` (`k = 0` is the most significant pair) of a packed
pixel byte: `(byte >> (6 - 2k)) & 3`. -/
def slot (byte k : Nat) : Nat := (byte >>> (6 - 2 * k)) &&& 3

/-- Colour value that slot `k` of the byte of 4-row group `G` in column `w` holds when
the rows up to (excluding) display row `lim` have been drawn: the drawing colour `c`
when row `4G + k` lies in `[y, lim)` and the sample predicate is true there, the
background colour `g` otherwise. -/
def expectUpTo (c g : Color) (f : BmpFnc) (y width height w lim G k : Nat) : Nat :=
  if y ≤ 4 * G + k ∧ 4 * G + k < lim ∧ f width height w (4 * G + k - y) = true
  then c.val else g.val

/-- Colour value expected in slot `k` of the byte of 4-row group `G` in column `w` of the
rectangle with rows `[y, y + height)`. -/
def expectSlot (c g : Color) (f : BmpFnc) (y width height w G k : Nat) : Nat :=
  expectUpTo c g f y width height w (y + height) G k

/-- The byte whose four slots hold the expected colours of group `G` in column `w`. -/
def groupByte (c g : Color) (f : BmpFnc) (y width height w G : Nat) : Nat :=
  64 * expectSlot c g f y width height w G 0 + 16 * expectSlot c g f y width height w G 1 +
    4 * expectSlot c g f y width height w G 2 + expectSlot c g f y width height w G 3

/-- Number of 4-row groups touched by the rows `[y, y + height)`, for `height >= 1`. -/
def groupCount (y height : Nat) : Nat := (y + height - 1) / 4 - y / 4 + 1

/-- Expected bytes of column `w`: one per touched 4-row group, in increasing order. -/
def columnBytes (c g : Color) (f : BmpFnc) (y width height w : Nat) : List Nat :=
  (List.range (groupCount y height)).map (fun j => groupByte c g f y width height w (y / 4 + j))

/-- Expected payload of a bitmap: the bytes of the columns `0 .. width - 1`, in order. -/
def bitmapBytes (c g : Color) (f : BmpFnc) (y width height : Nat) : List Nat :=
  (List.range width).flatMap (fun w => columnBytes c g f y width height w)

/-- HAL calls that only configure a pin or manage the bus driver (acquire, start, stop,
release) and neither drive a line level nor transmit anything. -/
def Event.housekeeping : Event → Bool
  | .palSetLineMode _ => true
  | .spiAcquireBus => true
  | .spiReleaseBus => true
  | .spiStart => true
  | .spiStop => true
  | _ => false

/-- Protocol view of a trace: the line levels, waits, chip select / unselect and
transmissions, without the housekeeping calls. -/
def protocolView (t : List Event) : List Event := t.filter (fun ev => !ev.housekeeping)

/-- The HAL calls of `sendCmd(c)`: data/command line low, the command byte, line high. -/
def cmdEvents (c : Nat) : List Event :=
  [.palClearLine .dc, .spiSend [c], .palSetLine .dc]

/-- The HAL calls of a sequence of `sendData(b)` calls. -/
def dataEvents (bs : List Nat) : List Event := bs.map (fun b => Event.spiSend [b])

end EInk

namespace EInk

/-! ## Basic facts about runs -/

theorem Run.bind_eq {α β : Type} (r : Run α) (f : α → Run β) : r >>= f = Run.bind r f := rfl

theorem Run.pure_eq {α : Type} (a : α) : (pure a : Run α) = ⟨[], some a⟩ := rfl

theorem Run.bind_emit {β : Type} (e : Event) (f : Unit → Run β) :
    Run.bind (emit e) f = ⟨e :: (f ()).trace, (f ()).val⟩ := rfl

theorem Run.bind_ok {α β : Type} (t : List Event) (a : α) (f : α → Run β) :
    Run.bind ⟨t, some a⟩ f = ⟨t ++ (f a).trace, (f a).val⟩ := rfl

theorem Run.bind_halt {α β : Type} (t : List Event) (f : α → Run β) :
    Run.bind ⟨t, none⟩ f = ⟨t, none⟩ := rfl

theorem sendCmd_eq (c : Nat) : SSD16xx.sendCmd c = ⟨cmdEvents c, some ()⟩ := rfl

theorem sendData_eq (b : Nat) : SSD16xx.sendData b = ⟨[.spiSend [b % 256]], some ()⟩ := rfl

/-- The fatal check of `setAddress` passes exactly on in-range arguments. -/
theorem setAddress_val (s : SSD16xx) (xsa xea ysa yea : Nat) :
    (s.setAddress xsa xea ysa yea).val =
      if xsa < s.sources >>> 2 ∧ xea < s.sources >>> 2 ∧ ysa < s.gates ∧ yea < s.gates
      then some () else none := by
  by_cases hg : s.gates > 255 <;>
  by_cases h1 : xsa < s.sources >>> 2 <;> by_cases h2 : xea < s.sources >>> 2 <;>
  by_cases h3 : ysa < s.gates <;> by_cases h4 : yea < s.gates <;>
  simp [SSD16xx.setAddress, osalDbgAssert, h1, h2, h3, h4, hg, Run.bind_eq, Run.bind_ok,
    Run.bind_halt, sendCmd_eq, sendData_eq, Run.pure_eq]

/-- Nothing is sent by a `setAddress` whose fatal check fails. -/
theorem setAddress_trace_of_halt (s : SSD16xx) (xsa xea ysa yea : Nat)
    (h : (s.setAddress xsa xea ysa yea).val = none) :
    (s.setAddress xsa xea ysa yea).trace = [] := by
  rw [setAddress_val] at h
  have hc : ¬ (xsa < s.sources >>> 2 ∧ xea < s.sources >>> 2 ∧ ysa < s.gates ∧ yea < s.gates) := by
    intro hc
    simp [hc] at h
  have hb : (decide (xsa < s.sources >>> 2) && decide (xea < s.sources >>> 2) &&
      decide (ysa < s.gates) && decide (yea < s.gates)) = false := by
    by_cases h1 : xsa < s.sources >>> 2 <;> by_cases h2 : xea < s.sources >>> 2 <;>
    by_cases h3 : ysa < s.gates <;> by_cases h4 : yea < s.gates <;> simp_all
  simp only [SSD16xx.setAddress, osalDbgAssert, hb, Run.bind_eq]
  rfl

end EInk

namespace EInk

/-! ## Packed pixel bytes -/

theorem and_three (x : Nat) : x &&& 3 = x % 4 := Nat.and_pow_two_sub_one_eq_mod x 2

theorem slotShift_eq (h y : Nat) : slotShift h y = 6 - 2 * ((h + y) % 4) := by
  unfold slotShift
  rw [and_three, Nat.shiftLeft_eq]
  omega

theorem Color.val_lt (c : Color) : c.val < 4 := by
  cases c <;> decide

set_option maxRecDepth 100000 in
theorem slot_set_aux : ∀ b, b < 256 → ∀ j, j < 4 → ∀ c, c < 4 → ∀ k, k < 4 →
    slot ((((b &&& (0xFF ^^^ (0x03 <<< (6 - 2 * j)))) % 256) ||| (c <<< (6 - 2 * j))) % 256) k =
      if k = j then c else slot b k := by
  unfold slot
  decide

/-- Effect of the two assignments `b &= ~(0x03 << s); b |= (color << s);` on the slots. -/
theorem slot_set (b h y : Nat) (c : Color) (k : Nat) (hb : b < 256) (hk : k < 4) :
    slot ((((b &&& (0xFF ^^^ (0x03 <<< slotShift h y))) % 256) |||
      (c.val <<< slotShift h y)) % 256) k = if k = (h + y) % 4 then c.val else slot b k := by
  rw [slotShift_eq]
  exact slot_set_aux b hb ((h + y) % 4) (Nat.mod_lt _ (by decide)) c.val c.val_lt k hk

theorem byte_eq_slots (b : Nat) (hb : b < 256) :
    b = 64 * slot b 0 + 16 * slot b 1 + 4 * slot b 2 + slot b 3 := by
  unfold slot
  simp only [and_three, Nat.shiftRight_eq_div_pow]
  omega

theorem slot_of_slots (s0 s1 s2 s3 : Nat) (h0 : s0 < 4) (h1 : s1 < 4) (h2 : s2 < 4)
    (h3 : s3 < 4) :
    slot (64 * s0 + 16 * s1 + 4 * s2 + s3) 0 = s0 ∧ slot (64 * s0 + 16 * s1 + 4 * s2 + s3) 1 = s1 ∧
    slot (64 * s0 + 16 * s1 + 4 * s2 + s3) 2 = s2 ∧ slot (64 * s0 + 16 * s1 + 4 * s2 + s3) 3 = s3 := by
  unfold slot
  simp only [and_three, Nat.shiftRight_eq_div_pow]
  omega

theorem slot_packColor (g : Color) (k : Nat) (hk : k < 4) : slot (packColor g) k = g.val := by
  have h4 : k = 0 ∨ k = 1 ∨ k = 2 ∨ k = 3 := by omega
  rcases h4 with h | h | h | h <;> subst h <;> cases g <;> decide

theorem packColor_lt (g : Color) : packColor g < 256 := by
  cases g <;> decide

theorem packColor_eq (g : Color) : packColor g = g.val * 0x55 := by
  cases g <;> decide

theorem expectUpTo_lt (c g : Color) (f : BmpFnc) (y width height w lim G k : Nat) :
    expectUpTo c g f y width height w lim G k < 4 := by
  unfold expectUpTo
  split
  · exact c.val_lt
  · exact g.val_lt

theorem groupByte_lt (c g : Color) (f : BmpFnc) (y width height w G : Nat) :
    groupByte c g f y width height w G < 256 := by
  unfold groupByte expectSlot
  have h0 := expectUpTo_lt c g f y width height w (y + height) G 0
  have h1 := expectUpTo_lt c g f y width height w (y + height) G 1
  have h2 := expectUpTo_lt c g f y width height w (y + height) G 2
  have h3 := expectUpTo_lt c g f y width height w (y + height) G 3
  omega

theorem slot_groupByte (c g : Color) (f : BmpFnc) (y width height w G k : Nat) (hk : k < 4) :
    slot (groupByte c g f y width height w G) k = expectSlot c g f y width height w G k := by
  have h := slot_of_slots _ _ _ _ (expectUpTo_lt c g f y width height w (y + height) G 0)
    (expectUpTo_lt c g f y width height w (y + height) G 1)
    (expectUpTo_lt c g f y width height w (y + height) G 2)
    (expectUpTo_lt c g f y width height w (y + height) G 3)
  have h4 : k = 0 ∨ k = 1 ∨ k = 2 ∨ k = 3 := by omega
  unfold groupByte expectSlot
  rcases h4 with hk | hk | hk | hk <;> subst hk
  · exact h.1
  · exact h.2.1
  · exact h.2.2.1
  · exact h.2.2.2

/-- A byte is determined by its four slots. -/
theorem byte_eq_groupByte (c g : Color) (f : BmpFnc) (y width height w G b : Nat)
    (hb : b < 256) (hs : ∀ k, k < 4 → slot b k = expectSlot c g f y width height w G k) :
    b = groupByte c g f y width height w G := by
  rw [byte_eq_slots b hb, hs 0 (by decide), hs 1 (by decide), hs 2 (by decide),
    hs 3 (by decide)]
  rfl

/-! ## The loops of `EPD::drawBitmap` -/

theorem expectUpTo_step (c g : Color) (f : BmpFnc) (y width height w h k : Nat) :
    expectUpTo c g f y width height w (y + h + 1) ((y + h) / 4) k =
      if k = (h + y) % 4 then (if f width height w h = true then c.val else g.val)
      else expectUpTo c g f y width height w (y + h) ((y + h) / 4) k := by
  unfold expectUpTo
  by_cases hk : k = (h + y) % 4
  · have hr : 4 * ((y + h) / 4) + k - y = h := by omega
    have h1 : y ≤ 4 * ((y + h) / 4) + k := by omega
    have h2 : 4 * ((y + h) / 4) + k < y + h + 1 := by omega
    rw [if_pos hk]
    simp only [hr, h1, h2, true_and]
  · have h2 : 4 * ((y + h) / 4) + k < y + h + 1 ↔ 4 * ((y + h) / 4) + k < y + h := by omega
    rw [if_neg hk]
    simp only [h2]

theorem expectUpTo_at (c g : Color) (f : BmpFnc) (y width height w h k : Nat)
    (hk : k = (h + y) % 4) :
    expectUpTo c g f y width height w (y + h) ((y + h) / 4) k = g.val := by
  unfold expectUpTo
  have h2 : ¬ (4 * ((y + h) / 4) + k < y + h) := by omega
  simp [h2]

theorem expectUpTo_done (c g : Color) (f : BmpFnc) (y width height w h k : Nat)
    (hh : h < height) (hk : k < 4) (hf : (h + y) % 4 = 3 ∨ h = height - 1) :
    expectUpTo c g f y width height w (y + h + 1) ((y + h) / 4) k =
      expectSlot c g f y width height w ((y + h) / 4) k := by
  unfold expectSlot expectUpTo
  have h2 : 4 * ((y + h) / 4) + k < y + h + 1 ↔ 4 * ((y + h) / 4) + k < y + height := by omega
  simp only [h2]

theorem expectUpTo_fresh (c g : Color) (f : BmpFnc) (y width height w lim G k : Nat)
    (hl : lim ≤ 4 * G ∨ lim ≤ y) :
    expectUpTo c g f y width height w lim G k = g.val := by
  unfold expectUpTo
  have h2 : ¬ (y ≤ 4 * G + k ∧ 4 * G + k < lim) := by omega
  have h3 : ¬ (y ≤ 4 * G + k ∧ 4 * G + k < lim ∧ f width height w (4 * G + k - y) = true) := by
    intro h
    exact h2 ⟨h.1, h.2.1⟩
  rw [if_neg h3]

theorem range_map_shift {α : Type} (g : Nat → α) (a N : Nat) :
    (List.range (N + 1)).map (fun j => g (a + j)) =
      g a :: (List.range N).map (fun j => g (a + 1 + j)) := by
  rw [List.range_succ_eq_map, List.map_cons, List.map_map]
  refine congrArg₂ _ rfl (List.map_congr_left ?_)
  intro j _
  show g (a + (j + 1)) = g (a + 1 + j)
  congr 1
  omega

theorem rowLoop_succ (e : EPD) (color : Color) (y width height : Nat) (f : BmpFnc)
    (w n h b : Nat) :
    EPD.rowLoop e color y width height f w (n + 1) h b =
      if ((h + y) % 4 = 3 ∨ h = height - 1) then
        Run.bind (SSD16xx.sendData (if f width height w h = true then
            (((b &&& (0xFF ^^^ (0x03 <<< slotShift h y))) % 256) |||
              (color.val <<< slotShift h y)) % 256 else b))
          (fun _ => EPD.rowLoop e color y width height f w n (h + 1) (packColor e.bkgColor))
      else
        EPD.rowLoop e color y width height f w n (h + 1) (if f width height w h = true then
            (((b &&& (0xFF ^^^ (0x03 <<< slotShift h y))) % 256) |||
              (color.val <<< slotShift h y)) % 256 else b) := by
  rw [EPD.rowLoop]
  simp only [and_three, Run.bind_eq, Bool.or_eq_true, beq_iff_eq, decide_eq_true_eq]

theorem rowLoop_spec (e : EPD) (color : Color) (y width height : Nat) (f : BmpFnc) (w : Nat) :
    ∀ n h b, h + n = height → 0 < n → b < 256 →
      (∀ k, k < 4 → slot b k =
        expectUpTo color e.bkgColor f y width height w (y + h) ((y + h) / 4) k) →
      EPD.rowLoop e color y width height f w n h b =
        ⟨dataEvents ((List.range ((y + height - 1) / 4 - (y + h) / 4 + 1)).map
          (fun j => groupByte color e.bkgColor f y width height w ((y + h) / 4 + j))),
          some (packColor e.bkgColor)⟩ := by
  intro n
  induction n with
  | zero =>
    intro h b _ hn
    omega
  | succ n ih =>
    intro h b hsum _ hb hinv
    rw [rowLoop_succ]
    generalize hb1 : (if f width height w h = true then
      (((b &&& (0xFF ^^^ (0x03 <<< slotShift h y))) % 256) |||
        (color.val <<< slotShift h y)) % 256 else b) = b1
    have hb1lt : b1 < 256 := by
      rw [← hb1]
      split
      · exact Nat.mod_lt _ (by decide)
      · exact hb
    have hs1 : ∀ k, k < 4 → slot b1 k =
        expectUpTo color e.bkgColor f y width height w (y + h + 1) ((y + h) / 4) k := by
      intro k hk
      rw [expectUpTo_step, ← hb1]
      by_cases hf : f width height w h = true
      · rw [if_pos hf, if_pos hf, slot_set b h y color k hb hk, hinv k hk]
      · rw [if_neg hf, if_neg hf, hinv k hk]
        by_cases hk0 : k = (h + y) % 4
        · rw [if_pos hk0, expectUpTo_at _ _ _ _ _ _ _ _ _ hk0]
        · rw [if_neg hk0]
    by_cases hflush : (h + y) % 4 = 3 ∨ h = height - 1
    · rw [if_pos hflush]
      have hbyte : b1 = groupByte color e.bkgColor f y width height w ((y + h) / 4) := by
        apply byte_eq_groupByte _ _ _ _ _ _ _ _ _ hb1lt
        intro k hk
        rw [hs1 k hk, expectUpTo_done _ _ _ _ _ _ _ _ _ (by omega) hk hflush]
      rw [sendData_eq, Nat.mod_eq_of_lt hb1lt, Run.bind_ok]
      by_cases hn : n = 0
      · subst hn
        have hcnt : (y + height - 1) / 4 - (y + h) / 4 + 1 = 1 := by
          have : y + height - 1 = y + h := by omega
          rw [this]
          omega
        rw [hcnt, EPD.rowLoop, hbyte]
        rfl
      · have hnext : (y + (h + 1)) / 4 = (y + h) / 4 + 1 := by omega
        have hcnt : (y + height - 1) / 4 - (y + h) / 4 + 1 =
            ((y + height - 1) / 4 - (y + (h + 1)) / 4 + 1) + 1 := by omega
        conv_rhs => rw [hcnt, range_map_shift]
        rw [ih (h + 1) (packColor e.bkgColor) (by omega) (by omega) (packColor_lt _)
          (fun k hk => by
            rw [slot_packColor _ k hk, expectUpTo_fresh]
            left
            omega)]
        rw [hnext, hbyte]
        rfl
    · rw [if_neg hflush]
      have hnext : (y + (h + 1)) / 4 = (y + h) / 4 := by omega
      rw [ih (h + 1) b1 (by omega) (by omega) hb1lt (fun k hk => by
        rw [hnext, hs1 k hk]
        rfl)]
      rw [hnext]

theorem range_flatMap_shift {α : Type} (g : Nat → List α) (a N : Nat) :
    (List.range (N + 1)).flatMap (fun j => g (a + j)) =
      g a ++ (List.range N).flatMap (fun j => g (a + 1 + j)) := by
  rw [List.range_succ_eq_map, List.flatMap_cons, List.flatMap_map]
  refine congrArg₂ _ rfl (congrArg₂ _ rfl ?_)
  funext j
  show g (a + (j + 1)) = g (a + 1 + j)
  congr 1
  omega

theorem dataEvents_append (a b : List Nat) : dataEvents (a ++ b) = dataEvents a ++ dataEvents b :=
  List.map_append _ a b

theorem colLoop_spec (e : EPD) (color : Color) (y width height : Nat) (f : BmpFnc)
    (hh : 0 < height) :
    ∀ n w, EPD.colLoop e color y width height f n w (packColor e.bkgColor) =
      ⟨dataEvents ((List.range n).flatMap
        (fun i => columnBytes color e.bkgColor f y width height (w + i))),
        some (packColor e.bkgColor)⟩ := by
  intro n
  induction n with
  | zero =>
    intro w
    rfl
  | succ n ih =>
    intro w
    rw [EPD.colLoop, Run.bind_eq,
      rowLoop_spec e color y width height f w height 0 (packColor e.bkgColor) (by omega) hh
        (packColor_lt _) (fun k hk => by
          rw [slot_packColor _ k hk, expectUpTo_fresh]
          right
          omega),
      Run.bind_ok, ih (w + 1), range_flatMap_shift, dataEvents_append]
    rfl

theorem select_eq (s : SSD16xx) :
    s.select = ⟨(if s.mutualExclusion then [.spiAcquireBus, .spiStart] else []) ++ [.spiSelect],
      some ()⟩ := by
  cases hm : s.mutualExclusion <;> simp [SSD16xx.select, hm] <;> rfl

theorem unselect_eq (s : SSD16xx) :
    s.unselect = ⟨[.spiUnselect] ++ (if s.mutualExclusion then [.spiReleaseBus] else []),
      some ()⟩ := by
  cases hm : s.mutualExclusion <;> simp [SSD16xx.unselect, hm] <;> rfl

theorem setAddress_of_pass (s : SSD16xx) (xsa xea ysa yea : Nat)
    (h : xsa < s.sources >>> 2 ∧ xea < s.sources >>> 2 ∧ ysa < s.gates ∧ yea < s.gates) :
    s.setAddress xsa xea ysa yea = ⟨(s.setAddress xsa xea ysa yea).trace, some ()⟩ := by
  have hv := setAddress_val s xsa xea ysa yea
  rw [if_pos h] at hv
  cases hr : s.setAddress xsa xea ysa yea with
  | mk t v =>
    rw [hr] at hv
    simp only at hv
    rw [hv]

theorem setAddress_of_fail (s : SSD16xx) (xsa xea ysa yea : Nat)
    (h : ¬ (xsa < s.sources >>> 2 ∧ xea < s.sources >>> 2 ∧ ysa < s.gates ∧ yea < s.gates)) :
    s.setAddress xsa xea ysa yea = ⟨[], none⟩ := by
  have hv := setAddress_val s xsa xea ysa yea
  rw [if_neg h] at hv
  have ht := setAddress_trace_of_halt s xsa xea ysa yea hv
  cases hr : s.setAddress xsa xea ysa yea with
  | mk t v =>
    rw [hr] at hv ht
    simp only at hv ht
    rw [hv, ht]

/-- The run of `drawBitmap` when the fatal check of `setAddress` passes. -/
theorem drawBitmap_of_pass (e : EPD) (color : Color) (x y width height : Nat) (f : BmpFnc)
    (hh : 0 < height)
    (h : (e.window x y width height).xsa < e.ssd.sources >>> 2 ∧
      (e.window x y width height).xea < e.ssd.sources >>> 2 ∧
      (e.window x y width height).ysa < e.ssd.gates ∧
      (e.window x y width height).yea < e.ssd.gates) :
    e.drawBitmap color x y width height f =
      ⟨(if e.ssd.mutualExclusion then [.spiAcquireBus, .spiStart] else []) ++ [.spiSelect] ++
        (e.ssd.setAddress (e.window x y width height).xsa (e.window x y width height).xea
          (e.window x y width height).ysa (e.window x y width height).yea).trace ++
        dataEvents (bitmapBytes color e.bkgColor f y width height) ++
        ([.spiUnselect] ++ (if e.ssd.mutualExclusion then [.spiReleaseBus] else [])),
        some ()⟩ := by
  have hcol := colLoop_spec e color y width height f hh width 0
  simp only [Nat.zero_add] at hcol
  simp only [EPD.drawBitmap, Run.bind_eq]
  rw [select_eq, unselect_eq, setAddress_of_pass _ _ _ _ _ h, hcol]
  simp only [Run.bind_ok, bitmapBytes, List.append_assoc]

/-- The run of `drawBitmap` when the fatal check of `setAddress` fails. -/
theorem drawBitmap_of_fail (e : EPD) (color : Color) (x y width height : Nat) (f : BmpFnc)
    (h : ¬ ((e.window x y width height).xsa < e.ssd.sources >>> 2 ∧
      (e.window x y width height).xea < e.ssd.sources >>> 2 ∧
      (e.window x y width height).ysa < e.ssd.gates ∧
      (e.window x y width height).yea < e.ssd.gates)) :
    e.drawBitmap color x y width height f =
      ⟨(if e.ssd.mutualExclusion then [.spiAcquireBus, .spiStart] else []) ++ [.spiSelect],
        none⟩ := by
  simp only [EPD.drawBitmap, Run.bind_eq]
  rw [select_eq, setAddress_of_fail _ _ _ _ _ h]
  simp only [Run.bind_ok, Run.bind_halt, List.append_nil]

/-! ## The address window -/

/-- Inside an accepted panel no conversion of `drawBitmap` loses anything, provided the
RAM x extent fits the `uint8_t` parameters (`sources() <= 1024`). -/
theorem window_exact (e : EPD) (x y width height : Nat)
    (hc : e.width ≤ e.ssd.gates ∧ e.height ≤ e.ssd.sources) (hs : e.ssd.sources ≤ 1024)
    (hw : 1 ≤ width) (hh : 1 ≤ height) (hx : x + width ≤ e.width) (hy : y + height ≤ e.height) :
    e.window x y width height =
      ⟨y / 4, (y + height + 3) / 4 - 1, e.width - 1 - x, e.width - (x + width)⟩ := by
  have hg := e.ssd.gates_u16
  simp only [EPD.window, Nat.shiftRight_eq_div_pow, Window.mk.injEq]
  refine ⟨?_, ?_, ?_, ?_⟩ <;> omega

/-- Inside an accepted panel on a driver whose source count is a multiple of 4, the
window of `drawBitmap` passes the check of `setAddress`. -/
theorem window_pass (e : EPD) (x y width height : Nat)
    (hc : e.width ≤ e.ssd.gates ∧ e.height ≤ e.ssd.sources) (h4 : e.ssd.sources % 4 = 0)
    (hw : 1 ≤ width) (hh : 1 ≤ height) (hx : x + width ≤ e.width) (hy : y + height ≤ e.height) :
    (e.window x y width height).xsa < e.ssd.sources >>> 2 ∧
      (e.window x y width height).xea < e.ssd.sources >>> 2 ∧
      (e.window x y width height).ysa < e.ssd.gates ∧
      (e.window x y width height).yea < e.ssd.gates := by
  have hg := e.ssd.gates_u16
  have hs := e.ssd.sources_u16
  simp only [EPD.window, Nat.shiftRight_eq_div_pow]
  refine ⟨?_, ?_, ?_, ?_⟩ <;> omega

theorem bitmapBytes_length (c g : Color) (f : BmpFnc) (y width height : Nat) :
    (bitmapBytes c g f y width height).length = width * groupCount y height := by
  simp [bitmapBytes, columnBytes, List.length_flatMap, Function.comp_def]

/-! ## `EPD::EPD` -/

/-- What the fatal checks of the constructor guarantee about the constructed panel. -/
theorem new_accepted (ssd : SSD16xx) (width height : Nat) (fntp : List Nat) (e : EPD)
    (h : (EPD.new ssd width height fntp).val = some e) :
    e = ⟨ssd, width, height, fntp, .white⟩ ∧ width ≤ ssd.gates ∧ height ≤ ssd.sources ∧
      Font.first_char fntp ≤ Font.last_char fntp ∧ Font.height fntp ≤ height := by
  by_cases h1 : width ≤ ssd.gates <;> by_cases h2 : height ≤ ssd.sources <;>
  by_cases h3 : Font.first_char fntp ≤ Font.last_char fntp <;>
  by_cases h4 : Font.height fntp ≤ height <;>
  simp [EPD.new, EPD.setFont, EPD.setBkgColor, osalDbgAssert, Run.bind_eq, Run.bind_ok,
    Run.bind_halt, Run.pure_eq, Run.bind, h1, h2, h3, h4] at h
  exact ⟨h.symm, h1, h2, h3, h4⟩

theorem new_panel172x72 : EPD.new (SSD1606 false) 172 72 sampleFont = ⟨[], some panel172x72⟩ :=
  rfl

theorem new_panel0x4 : EPD.new (SSD1606 false) 0 4 tinyFont = ⟨[], some panel0x4⟩ := rfl

/-! ## Straight-line routines -/

theorem start_eq (s : SSD16xx) (hs : s.sendLUTData.val = some ()) :
    s.start =
      ⟨[.palSetLineMode .dc,
        .palClearLine .rst, .chThdSleepMilliseconds 10,
        .palSetLine .rst, .chThdSleepMilliseconds 10] ++
        (if s.mutualExclusion then [.spiAcquireBus] else []) ++
        [.spiStart, .spiSelect,
        .palClearLine .dc, .spiSend [0x11], .palSetLine .dc, .spiSend [0x01],
        .palClearLine .dc, .spiSend [0x2C], .palSetLine .dc, .spiSend [0xA0],
        .palClearLine .dc, .spiSend [0x3C], .palSetLine .dc, .spiSend [0x63],
        .palClearLine .dc, .spiSend [0x22], .palSetLine .dc, .spiSend [0xC4],
        .palClearLine .dc, .spiSend [0x32], .palSetLine .dc] ++
        s.sendLUTData.trace ++
        [.spiUnselect] ++
        (if s.mutualExclusion then [.spiReleaseBus] else []), some ()⟩ := by
  have hl : s.sendLUTData = ⟨s.sendLUTData.trace, some ()⟩ := by
    cases hr : s.sendLUTData with
    | mk t v =>
      rw [hr] at hs
      simp only at hs
      rw [hs]
  cases hm : s.mutualExclusion <;>
  · rw [SSD16xx.start, hl]
    simp [hm, Run.bind_eq, Run.bind_ok, Run.bind_emit, sendCmd_eq, sendData_eq, cmdEvents,
      Run.pure_eq, emit, SSD16xx_DEMDS, SSD16xx_WVCOMREG, SSD16xx_VBDSET, SSD16xx_DUPCTRL2,
      SSD16xx_WLUTREG]

theorem stop_eq (s : SSD16xx) :
    s.stop =
      ⟨(if s.mutualExclusion then [.spiAcquireBus, .spiStart] else []) ++
        [.spiSelect,
        .palClearLine .dc, .spiSend [0x22], .palSetLine .dc, .spiSend [0x03],
        .palClearLine .dc, .spiSend [0x10], .palSetLine .dc, .spiSend [0x01],
        .spiUnselect, .spiStop] ++
        (if s.mutualExclusion then [.spiReleaseBus] else []), some ()⟩ := by
  cases hm : s.mutualExclusion <;>
  simp [SSD16xx.stop, hm, Run.bind_eq, Run.bind_ok, Run.bind_emit, sendCmd_eq, sendData_eq,
    cmdEvents, Run.pure_eq, emit, SSD16xx_DUPCTRL2, SSD16xx_DPSLP]

theorem updateCmd_eq (s : SSD16xx) :
    s.updateCmd =
      ⟨(if s.mutualExclusion then [.spiAcquireBus, .spiStart] else []) ++
        [.spiSelect, .palClearLine .dc, .spiSend [0x20], .palSetLine .dc, .spiUnselect] ++
        (if s.mutualExclusion then [.spiReleaseBus] else []), some ()⟩ := by
  cases hm : s.mutualExclusion <;>
  simp [SSD16xx.updateCmd, hm, Run.bind_eq, Run.bind_ok, Run.bind_emit, sendCmd_eq,
    cmdEvents, Run.pure_eq, emit, SSD16xx_ADPUPDSC]

theorem sendRepeat_eq (b : Nat) : ∀ n, sendRepeat b n =
    ⟨List.replicate n (.spiSend [b % 256]), some ()⟩ := by
  intro n
  induction n with
  | zero => rfl
  | succ n ih =>
    rw [sendRepeat, Run.bind_eq, sendData_eq, Run.bind_ok, ih]
    rfl

/-- The wait loop of `update` ends as soon as the busy line reads low. -/
theorem waitReady_terminates (busy : Nat → Bool) :
    ∀ n i, busy (i + n) = false →
      ∃ t, SSD16xx.waitReady busy (n + 1) i = some t ∧ ∀ ev ∈ t, Event.passive ev = true := by
  intro n
  induction n with
  | zero =>
    intro i hb
    refine ⟨[.palReadLine .busy false], ?_, ?_⟩
    · rw [SSD16xx.waitReady]
      rw [Nat.add_zero] at hb
      simp [hb]
    · intro ev hev
      simp only [List.mem_singleton] at hev
      subst hev
      rfl
  | succ n ih =>
    intro i hb
    by_cases hi : busy i = true
    · obtain ⟨t, ht, hp⟩ := ih (i + 1) (by
        rw [← hb]
        congr 1
        omega)
      refine ⟨.palReadLine .busy true :: .chThdSleepMilliseconds 10 :: t, ?_, ?_⟩
      · rw [SSD16xx.waitReady, if_pos hi, ht]
        rfl
      · intro ev hev
        simp only [List.mem_cons] at hev
        rcases hev with h | h | h
        · subst h
          rfl
        · subst h
          rfl
        · exact hp ev h
    · refine ⟨[.palReadLine .busy false], ?_, ?_⟩
      · rw [SSD16xx.waitReady, if_neg hi]
      · intro ev hev
        simp only [List.mem_singleton] at hev
        subst hev
        rfl

/-! ## The chip-select bracket -/

theorem foldl_inside (l : List Event) (h : ∀ ev ∈ l, Event.inner ev = true) :
    l.foldl Phase.step .inside = .inside := by
  induction l with
  | nil => rfl
  | cons a l ih =>
    have ha : Phase.step .inside a = .inside := by
      have := h a (List.mem_cons_self a l)
      cases a <;> first | rfl | cases this
    rw [List.foldl_cons, ha]
    exact ih (fun ev hev => h ev (List.mem_cons_of_mem a hev))

theorem foldl_before (l : List Event) (h : ∀ ev ∈ l, Event.passive ev = true) :
    l.foldl Phase.step .before = .before := by
  induction l with
  | nil => rfl
  | cons a l ih =>
    have ha : Phase.step .before a = .before := by
      have := h a (List.mem_cons_self a l)
      cases a <;> first | rfl | cases this
    rw [List.foldl_cons, ha]
    exact ih (fun ev hev => h ev (List.mem_cons_of_mem a hev))

theorem foldl_after (l : List Event) (h : ∀ ev ∈ l, Event.passive ev = true) :
    l.foldl Phase.step .after = .after := by
  induction l with
  | nil => rfl
  | cons a l ih =>
    have ha : Phase.step .after a = .after := by
      have := h a (List.mem_cons_self a l)
      cases a <;> first | rfl | cases this
    rw [List.foldl_cons, ha]
    exact ih (fun ev hev => h ev (List.mem_cons_of_mem a hev))

/-- A trace of the shape `pre, spiSelect, mid, spiUnselect, post` is one closed bracket. -/
theorem bracketPhase_closed (pre mid post : List Event)
    (hpre : ∀ ev ∈ pre, Event.passive ev = true) (hmid : ∀ ev ∈ mid, Event.inner ev = true)
    (hpost : ∀ ev ∈ post, Event.passive ev = true) :
    bracketPhase (pre ++ [.spiSelect] ++ mid ++ ([.spiUnselect] ++ post)) = .after := by
  unfold bracketPhase
  simp only [List.foldl_append, List.foldl_cons, List.foldl_nil]
  rw [foldl_before pre hpre]
  show List.foldl Phase.step (Phase.step (List.foldl Phase.step .inside mid) .spiUnselect) post = _
  rw [foldl_inside mid hmid]
  exact foldl_after post hpost

/-- A trace of the shape `pre, spiSelect, mid` is a bracket left open. -/
theorem bracketPhase_open (pre mid : List Event)
    (hpre : ∀ ev ∈ pre, Event.passive ev = true) (hmid : ∀ ev ∈ mid, Event.inner ev = true) :
    bracketPhase (pre ++ [.spiSelect] ++ mid) = .inside := by
  unfold bracketPhase
  simp only [List.foldl_append, List.foldl_cons, List.foldl_nil]
  rw [foldl_before pre hpre]
  exact foldl_inside mid hmid

theorem passive_acquire (m : Bool) :
    ∀ ev ∈ (if m then [Event.spiAcquireBus, Event.spiStart] else []), Event.passive ev = true := by
  cases m <;> simp [Event.passive]

theorem passive_release (m : Bool) :
    ∀ ev ∈ (if m then [Event.spiReleaseBus] else []), Event.passive ev = true := by
  cases m <;> simp [Event.passive]

theorem inner_dataEvents (bs : List Nat) : ∀ ev ∈ dataEvents bs, Event.inner ev = true := by
  intro ev hev
  simp only [dataEvents, List.mem_map] at hev
  obtain ⟨b, _, hb⟩ := hev
  subst hb
  rfl

theorem inner_setAddress (s : SSD16xx) (xsa xea ysa yea : Nat) :
    ∀ ev ∈ (s.setAddress xsa xea ysa yea).trace, Event.inner ev = true := by
  by_cases hg : s.gates > 255 <;>
  by_cases hc : (decide (xsa < s.sources >>> 2) && decide (xea < s.sources >>> 2) &&
      decide (ysa < s.gates) && decide (yea < s.gates)) = true <;>
  simp [SSD16xx.setAddress, osalDbgAssert, hc, hg, Run.bind_eq, Run.bind_ok, Run.bind_halt,
    sendCmd_eq, sendData_eq, cmdEvents, Run.pure_eq, Event.inner]

/-- A passing `setAddress` ends with the write-RAM command. -/
theorem setAddress_ends (s : SSD16xx) (xsa xea ysa yea : Nat)
    (h : xsa < s.sources >>> 2 ∧ xea < s.sources >>> 2 ∧ ysa < s.gates ∧ yea < s.gates) :
    ∃ pre, (s.setAddress xsa xea ysa yea).trace = pre ++ cmdEvents SSD16xx_RAMWR := by
  refine ⟨(s.setAddress xsa xea ysa yea).trace.dropLast.dropLast.dropLast, ?_⟩
  by_cases hg : s.gates > 255 <;>
  simp [SSD16xx.setAddress, osalDbgAssert, h.1, h.2.1, h.2.2.1, h.2.2.2, hg, Run.bind_eq,
    Run.bind_ok, sendCmd_eq, sendData_eq, cmdEvents, Run.pure_eq]

/-- The loops of `drawBitmap` never fail and only send data bytes, for any rectangle. -/
theorem rowLoop_inner (e : EPD) (color : Color) (y width height : Nat) (f : BmpFnc) (w : Nat) :
    ∀ n h b, ∃ t b1, EPD.rowLoop e color y width height f w n h b = ⟨t, some b1⟩ ∧
      ∀ ev ∈ t, Event.inner ev = true := by
  intro n
  induction n with
  | zero =>
    intro h b
    exact ⟨[], b, rfl, fun ev hev => by cases hev⟩
  | succ n ih =>
    intro h b
    rw [rowLoop_succ]
    split
    · obtain ⟨t, b1, ht, hin⟩ := ih (h + 1) (packColor e.bkgColor)
      rw [ht, sendData_eq, Run.bind_ok]
      refine ⟨_, b1, rfl, ?_⟩
      intro ev hev
      simp only [List.singleton_append, List.mem_cons] at hev
      rcases hev with hev | hev
      · subst hev
        rfl
      · exact hin ev hev
    · exact ih (h + 1) _

theorem colLoop_inner (e : EPD) (color : Color) (y width height : Nat) (f : BmpFnc) :
    ∀ n w b, ∃ t b1, EPD.colLoop e color y width height f n w b = ⟨t, some b1⟩ ∧
      ∀ ev ∈ t, Event.inner ev = true := by
  intro n
  induction n with
  | zero =>
    intro w b
    exact ⟨[], b, rfl, fun ev hev => by cases hev⟩
  | succ n ih =>
    intro w b
    obtain ⟨t1, b1, ht1, hin1⟩ := rowLoop_inner e color y width height f w height 0 b
    obtain ⟨t2, b2, ht2, hin2⟩ := ih (w + 1) b1
    rw [EPD.colLoop, Run.bind_eq, ht1, Run.bind_ok, ht2]
    refine ⟨_, b2, rfl, ?_⟩
    intro ev hev
    rcases List.mem_append.mp hev with hev | hev
    · exact hin1 ev hev
    · exact hin2 ev hev

/-- Shape of any run of `drawBitmap`: it either completes with one closed bracket or
stops at the check of `setAddress` right after the chip select. -/
theorem drawBitmap_shape (e : EPD) (color : Color) (x y width height : Nat) (f : BmpFnc) :
    (∃ mid, (∀ ev ∈ mid, Event.inner ev = true) ∧
      e.drawBitmap color x y width height f =
        ⟨(if e.ssd.mutualExclusion then [.spiAcquireBus, .spiStart] else []) ++ [.spiSelect] ++
          mid ++ ([.spiUnselect] ++ (if e.ssd.mutualExclusion then [.spiReleaseBus] else [])),
          some ()⟩) ∨
    e.drawBitmap color x y width height f =
      ⟨(if e.ssd.mutualExclusion then [.spiAcquireBus, .spiStart] else []) ++ [.spiSelect],
        none⟩ := by
  by_cases h : ((e.window x y width height).xsa < e.ssd.sources >>> 2 ∧
      (e.window x y width height).xea < e.ssd.sources >>> 2 ∧
      (e.window x y width height).ysa < e.ssd.gates ∧
      (e.window x y width height).yea < e.ssd.gates)
  · left
    obtain ⟨t, b1, ht, hin⟩ := colLoop_inner e color y width height f width 0 (packColor e.bkgColor)
    refine ⟨(e.ssd.setAddress (e.window x y width height).xsa (e.window x y width height).xea
          (e.window x y width height).ysa (e.window x y width height).yea).trace ++ t, ?_, ?_⟩
    · intro ev hev
      rcases List.mem_append.mp hev with hev | hev
      · exact inner_setAddress _ _ _ _ _ ev hev
      · exact hin ev hev
    · simp only [EPD.drawBitmap, Run.bind_eq]
      rw [select_eq, unselect_eq, setAddress_of_pass _ _ _ _ _ h, ht]
      simp only [Run.bind_ok, List.append_assoc]
  · right
    exact drawBitmap_of_fail e color x y width height f h

/-- Shape of any run of `fillDisplay`. -/
theorem fillDisplay_shape (e : EPD) (color : Color) :
    (e.fillDisplay color =
        ⟨(if e.ssd.mutualExclusion then [.spiAcquireBus, .spiStart] else []) ++ [.spiSelect] ++
          ((e.ssd.setAddress e.fillWindow.xsa e.fillWindow.xea e.fillWindow.ysa
              e.fillWindow.yea).trace ++
            List.replicate ((e.width * (e.height >>> 2)) % 4294967296)
              (.spiSend [packColor color])) ++
          ([.spiUnselect] ++ (if e.ssd.mutualExclusion then [.spiReleaseBus] else [])),
          some ()⟩ ∧
      (e.fillWindow.xsa < e.ssd.sources >>> 2 ∧ e.fillWindow.xea < e.ssd.sources >>> 2 ∧
        e.fillWindow.ysa < e.ssd.gates ∧ e.fillWindow.yea < e.ssd.gates)) ∨
    (e.fillDisplay color =
      ⟨(if e.ssd.mutualExclusion then [.spiAcquireBus, .spiStart] else []) ++ [.spiSelect],
        none⟩ ∧
      ¬ (e.fillWindow.xsa < e.ssd.sources >>> 2 ∧ e.fillWindow.xea < e.ssd.sources >>> 2 ∧
        e.fillWindow.ysa < e.ssd.gates ∧ e.fillWindow.yea < e.ssd.gates)) := by
  by_cases h : (e.fillWindow.xsa < e.ssd.sources >>> 2 ∧ e.fillWindow.xea < e.ssd.sources >>> 2 ∧
        e.fillWindow.ysa < e.ssd.gates ∧ e.fillWindow.yea < e.ssd.gates)
  · left
    refine ⟨?_, h⟩
    simp only [EPD.fillDisplay, Run.bind_eq]
    rw [select_eq, unselect_eq, setAddress_of_pass _ _ _ _ _ h, sendRepeat_eq,
      Nat.mod_eq_of_lt (packColor_lt color)]
    simp only [Run.bind_ok, List.append_assoc]
  · right
    refine ⟨?_, h⟩
    simp only [EPD.fillDisplay, Run.bind_eq]
    rw [select_eq, setAddress_of_fail _ _ _ _ _ h]
    simp only [Run.bind_ok, Run.bind_halt, List.append_nil]

theorem inner_start_commands :
    ∀ ev ∈ [Event.palClearLine .dc, .spiSend [0x11], .palSetLine .dc, .spiSend [0x01],
        .palClearLine .dc, .spiSend [0x2C], .palSetLine .dc, .spiSend [0xA0],
        .palClearLine .dc, .spiSend [0x3C], .palSetLine .dc, .spiSend [0x63],
        .palClearLine .dc, .spiSend [0x22], .palSetLine .dc, .spiSend [0xC4],
        .palClearLine .dc, .spiSend [0x32], .palSetLine .dc], Event.inner ev = true := by
  decide

end EInk

/-! # Properties of the specification -/

namespace EInk

/-! ## `EPD::drawBitmap`: pixel packing, window and payload -/

/-- C1: pixel packing of `drawBitmap`. For a rectangle with `width >= 1`, `height >= 1`
inside an accepted panel (on a driver whose source count is a multiple of 4, as the 72
of the SSD1606), the run completes and, after the write-RAM command that ends the
`setAddress` part and before the chip unselect, sends exactly the following data bytes:
column by column for `w = 0 .. width-1`, and within a column for the 4-row groups
`G = y/4 .. (y+height-1)/4` in increasing order, the byte `groupByte .. w G`. That byte
is below 256 and its slot `k`, decoded as `(byte >> (6 - 2k)) & 3`, equals the drawing
colour when row `4G + k` lies in `[y, y+height)` and the sample predicate is true at
`(w, 4G + k - y)`, and the background colour otherwise. In particular, for a group that
lies entirely inside the rectangle, decoding the four slots gives back the four encoded
colours. -/
theorem drawBitmap_packing (e : EPD) (color : Color) (x y width height : Nat) (f : BmpFnc)
    (hc : e.width ≤ e.ssd.gates ∧ e.height ≤ e.ssd.sources) (h4 : e.ssd.sources % 4 = 0)
    (hw : 1 ≤ width) (hh : 1 ≤ height) (hx : x + width ≤ e.width) (hy : y + height ≤ e.height) :
    (∃ pre,
      (e.ssd.setAddress (e.window x y width height).xsa (e.window x y width height).xea
        (e.window x y width height).ysa (e.window x y width height).yea).trace =
          pre ++ cmdEvents SSD16xx_RAMWR ∧
      e.drawBitmap color x y width height f =
        ⟨(if e.ssd.mutualExclusion then [.spiAcquireBus, .spiStart] else []) ++ [.spiSelect] ++
          (pre ++ cmdEvents SSD16xx_RAMWR) ++
          dataEvents ((List.range width).flatMap (fun w =>
            (List.range ((y + height - 1) / 4 - y / 4 + 1)).map (fun j =>
              groupByte color e.bkgColor f y width height w (y / 4 + j)))) ++
          ([.spiUnselect] ++ (if e.ssd.mutualExclusion then [.spiReleaseBus] else [])),
          some ()⟩) ∧
    (∀ w G k, k < 4 →
      groupByte color e.bkgColor f y width height w G < 256 ∧
      slot (groupByte color e.bkgColor f y width height w G) k =
        if y ≤ 4 * G + k ∧ 4 * G + k < y + height ∧ f width height w (4 * G + k - y) = true
        then color.val else e.bkgColor.val) ∧
    (∀ w G k, k < 4 → y ≤ 4 * G → 4 * G + 4 ≤ y + height →
      slot (groupByte color e.bkgColor f y width height w G) k =
        if f width height w (4 * G + k - y) = true then color.val else e.bkgColor.val) := by
  have hpass := window_pass e x y width height hc h4 hw hh hx hy
  obtain ⟨pre, hpre⟩ := setAddress_ends e.ssd _ _ _ _ hpass
  refine ⟨⟨pre, hpre, ?_⟩, ?_, ?_⟩
  · rw [drawBitmap_of_pass e color x y width height f hh hpass, hpre]
    rfl
  · intro w G k hk
    exact ⟨groupByte_lt _ _ _ _ _ _ _ _, slot_groupByte _ _ _ _ _ _ _ _ k hk⟩
  · intro w G k hk h1 h2
    rw [slot_groupByte _ _ _ _ _ _ _ _ k hk]
    unfold expectSlot expectUpTo
    have h3 : y ≤ 4 * G + k := by omega
    have h5 : 4 * G + k < y + height := by omega
    simp only [h3, h5, true_and]

/-- Witness for C1: a 2x5 checkerboard at rows 1..5 of the 172x72 panel. -/
theorem drawBitmap_packing_witness :
    (panel172x72.drawBitmap .black 0 1 2 5 (fun _ _ w h => (w + h) % 2 == 0)).trace =
      [.spiSelect] ++
      (panel172x72.ssd.setAddress 0 1 171 170).trace ++
      dataEvents [0xCC, 0xCF, 0xF3, 0x3F] ++ [.spiUnselect] ∧
    slot 0xCC 0 = 3 ∧ slot 0xCC 1 = 0 ∧ slot 0xCC 2 = 3 ∧ slot 0xCC 3 = 0 ∧
    ∃ pre,
      (panel172x72.ssd.setAddress (panel172x72.window 0 1 2 5).xsa
        (panel172x72.window 0 1 2 5).xea (panel172x72.window 0 1 2 5).ysa
        (panel172x72.window 0 1 2 5).yea).trace = pre ++ cmdEvents SSD16xx_RAMWR ∧
      panel172x72.drawBitmap .black 0 1 2 5 (fun _ _ w h => (w + h) % 2 == 0) =
        ⟨(if panel172x72.ssd.mutualExclusion then [.spiAcquireBus, .spiStart] else []) ++
          [.spiSelect] ++ (pre ++ cmdEvents SSD16xx_RAMWR) ++
          dataEvents ((List.range 2).flatMap (fun w =>
            (List.range ((1 + 5 - 1) / 4 - 1 / 4 + 1)).map (fun j =>
              groupByte .black panel172x72.bkgColor (fun _ _ w h => (w + h) % 2 == 0) 1 2 5 w
                (1 / 4 + j)))) ++
          ([.spiUnselect] ++
            (if panel172x72.ssd.mutualExclusion then [.spiReleaseBus] else [])),
          some ()⟩ :=
  ⟨by decide, by decide, by decide, by decide, by decide,
    (drawBitmap_packing panel172x72 .black 0 1 2 5 (fun _ _ w h => (w + h) % 2 == 0)
      (by decide) (by decide) (by decide) (by decide) (by decide) (by decide)).1⟩

/-- C2: RAM window transform of `drawBitmap` on the SSD1606 (72 sources, 172 gates).
For a rectangle with `width >= 1`, `height >= 1`, `x + width <= W` and
`y + height <= H` on an accepted panel of width `W` and height `H`, the window computed
by `drawBitmap` is `xsa = y/4`, `xea = (y+height+3)/4 - 1`, `ysa = W-1-x` and
`yea = W-1-(x-1+width)` taken over the integers (`= W - (x + width)`), so the `uint8_t`
and `uint16_t` conversions lose nothing, and these are the four values with which
`drawBitmap` calls `setAddress` between the chip select and the pixel data. -/
theorem drawBitmap_window_SSD1606 (m : Bool) (e : EPD) (color : Color)
    (x y width height : Nat) (f : BmpFnc) (he : e.ssd = SSD1606 m)
    (hc : e.width ≤ e.ssd.gates ∧ e.height ≤ e.ssd.sources)
    (hw : 1 ≤ width) (hh : 1 ≤ height) (hx : x + width ≤ e.width) (hy : y + height ≤ e.height) :
    e.window x y width height =
      ⟨y / 4, (y + height + 3) / 4 - 1, e.width - 1 - x, e.width - (x + width)⟩ ∧
    (((e.window x y width height).ysa : Int) = (e.width : Int) - 1 - (x : Int)) ∧
    (((e.window x y width height).yea : Int) =
      (e.width : Int) - 1 - ((x : Int) - 1 + (width : Int))) ∧
    e.drawBitmap color x y width height f =
      ⟨(if m then [.spiAcquireBus, .spiStart] else []) ++ [.spiSelect] ++
        (e.ssd.setAddress (y / 4) ((y + height + 3) / 4 - 1) (e.width - 1 - x)
          (e.width - (x + width))).trace ++
        dataEvents (bitmapBytes color e.bkgColor f y width height) ++
        ([.spiUnselect] ++ (if m then [.spiReleaseBus] else [])), some ()⟩ := by
  have hs : e.ssd.sources = 72 := by rw [he]; rfl
  have hm : e.ssd.mutualExclusion = m := by rw [he]; rfl
  have hex := window_exact e x y width height hc (by omega) hw hh hx hy
  have hpass := window_pass e x y width height hc (by omega) hw hh hx hy
  have hd := drawBitmap_of_pass e color x y width height f hh hpass
  rw [hex, hm] at hd
  refine ⟨hex, ?_, ?_, hd⟩
  · rw [hex]
    show ((e.width - 1 - x : Nat) : Int) = _
    omega
  · rw [hex]
    show ((e.width - (x + width) : Nat) : Int) = _
    omega

/-- Witness for C2: the rectangle `(x, y, width, height) = (10, 6, 20, 13)` on the
172x72 panel. -/
theorem drawBitmap_window_SSD1606_witness :
    panel172x72.window 10 6 20 13 = ⟨1, 4, 161, 142⟩ ∧
    panel172x72.window 10 6 20 13 =
      ⟨6 / 4, (6 + 13 + 3) / 4 - 1, panel172x72.width - 1 - 10,
        panel172x72.width - (10 + 20)⟩ :=
  ⟨by decide, (drawBitmap_window_SSD1606 false panel172x72 .black 10 6 20 13
    (fun _ _ _ _ => true) rfl (by decide) (by decide) (by decide) (by decide) (by decide)).1⟩

/-- C3, as stated, fails: on the 172x72 panel over the SSD1606 the rectangle
`(0, 0, 1, 100)` gives the window end `xea = 24`, which is not below
`sources()/4 = 18`; `drawFilledRect` passes it to `setAddress`, whose fatal check stops
the run right after the chip select. -/
theorem window_unchecked_counterexample :
    (panel172x72.window 0 0 1 100).xea = 24 ∧
    ¬ ((panel172x72.window 0 0 1 100).xea < panel172x72.ssd.sources / 4 ∧
      (panel172x72.window 0 0 1 100).yea < panel172x72.ssd.gates) ∧
    panel172x72.drawFilledRect .black 0 0 1 100 = ⟨[.spiSelect], none⟩ := by
  decide

/-- C3, amended: for a rectangle with `width >= 1`, `height >= 1` that lies inside an
accepted panel, on a driver whose source count is a multiple of 4, the window that
`drawBitmap` / `drawFilledRect` pass to `setAddress` satisfies `xea < sources()/4` and
`yea < gates()`. -/
theorem window_end_in_range (e : EPD) (x y width height : Nat)
    (hc : e.width ≤ e.ssd.gates ∧ e.height ≤ e.ssd.sources) (h4 : e.ssd.sources % 4 = 0)
    (hw : 1 ≤ width) (hh : 1 ≤ height) (hx : x + width ≤ e.width) (hy : y + height ≤ e.height) :
    (e.window x y width height).xea < e.ssd.sources / 4 ∧
    (e.window x y width height).yea < e.ssd.gates := by
  have h := window_pass e x y width height hc h4 hw hh hx hy
  simp only [Nat.shiftRight_eq_div_pow] at h
  exact ⟨h.2.1, h.2.2.2⟩

/-- Witness for C3 (amended): the bottom right pixel of the 172x72 panel. -/
theorem window_end_in_range_witness :
    (panel172x72.window 171 71 1 1).xea < panel172x72.ssd.sources / 4 ∧
    (panel172x72.window 171 71 1 1).yea < panel172x72.ssd.gates :=
  window_end_in_range panel172x72 171 71 1 1 (by decide) (by decide) (by decide) (by decide)
    (by decide) (by decide)

/-- C4: on the SSD1606, for every panel accepted by the constructor (`width <= 172`,
`height <= 72`) and every rectangle with `width >= 1`, `height >= 1` inside the panel,
the window of `drawBitmap` / `drawFilledRect` satisfies `xsa < sources()/4`,
`xea < sources()/4`, `ysa < gates()` and `yea < gates()`; `setAddress` passes its
fatal check and `drawBitmap` and `drawFilledRect` run to completion. -/
theorem window_valid_SSD1606 (m : Bool) (e : EPD) (color : Color)
    (x y width height : Nat) (f : BmpFnc) (he : e.ssd = SSD1606 m)
    (hc : e.width ≤ 172 ∧ e.height ≤ 72)
    (hw : 1 ≤ width) (hh : 1 ≤ height) (hx : x + width ≤ e.width) (hy : y + height ≤ e.height) :
    (e.window x y width height).xsa < (SSD1606 m).sources / 4 ∧
    (e.window x y width height).xea < (SSD1606 m).sources / 4 ∧
    (e.window x y width height).ysa < (SSD1606 m).gates ∧
    (e.window x y width height).yea < (SSD1606 m).gates ∧
    ((SSD1606 m).setAddress (e.window x y width height).xsa (e.window x y width height).xea
      (e.window x y width height).ysa (e.window x y width height).yea).val = some () ∧
    (e.drawBitmap color x y width height f).val = some () ∧
    (e.drawFilledRect color x y width height).val = some () := by
  have hs : e.ssd.sources = 72 := by rw [he]; rfl
  have hg : e.ssd.gates = 172 := by rw [he]; rfl
  have hpass := window_pass e x y width height (by omega) (by omega) hw hh hx hy
  have hb := fun g => drawBitmap_of_pass e color x y width height g hh hpass
  have hv := setAddress_val e.ssd (e.window x y width height).xsa (e.window x y width height).xea
      (e.window x y width height).ysa (e.window x y width height).yea
  rw [if_pos hpass] at hv
  simp only [Nat.shiftRight_eq_div_pow] at hpass
  rw [he] at hpass hv
  refine ⟨hpass.1, hpass.2.1, hpass.2.2.1, hpass.2.2.2, hv, ?_, ?_⟩
  · rw [hb f]
  · rw [EPD.drawFilledRect, hb]

/-- Witness for C4: the whole 172x72 panel. -/
theorem window_valid_SSD1606_witness :
    (panel172x72.window 0 0 172 72).xsa < (SSD1606 false).sources / 4 ∧
    (panel172x72.window 0 0 172 72).xea < (SSD1606 false).sources / 4 ∧
    (panel172x72.window 0 0 172 72).ysa < (SSD1606 false).gates ∧
    (panel172x72.window 0 0 172 72).yea < (SSD1606 false).gates :=
  have h := window_valid_SSD1606 false panel172x72 .black 0 0 172 72 (fun _ _ _ _ => true) rfl
    (by decide) (by decide) (by decide) (by decide) (by decide)
  ⟨h.1, h.2.1, h.2.2.1, h.2.2.2.1⟩

/-- C5: payload length of `drawBitmap`. For a rectangle with `width >= 1`, `height >= 1`
inside an accepted panel (on a driver whose source count is a multiple of 4 and at most
1024, as the 72 of the SSD1606), the data bytes sent between the `setAddress` part,
which ends with the write-RAM command, and the chip unselect are `bitmapBytes ..`, one
HAL transmission per byte, and their number equals `(xea - xsa + 1) * (ysa - yea + 1)`
for the requested window and equals `width * ((y+height-1)/4 - y/4 + 1)`: every column
contributes exactly one byte per 4-row group it touches. -/
theorem drawBitmap_payload_length (e : EPD) (color : Color) (x y width height : Nat)
    (f : BmpFnc) (hc : e.width ≤ e.ssd.gates ∧ e.height ≤ e.ssd.sources)
    (h4 : e.ssd.sources % 4 = 0) (hs : e.ssd.sources ≤ 1024)
    (hw : 1 ≤ width) (hh : 1 ≤ height) (hx : x + width ≤ e.width) (hy : y + height ≤ e.height) :
    (∃ pre,
      (e.ssd.setAddress (e.window x y width height).xsa (e.window x y width height).xea
        (e.window x y width height).ysa (e.window x y width height).yea).trace =
          pre ++ cmdEvents SSD16xx_RAMWR ∧
      e.drawBitmap color x y width height f =
        ⟨(if e.ssd.mutualExclusion then [.spiAcquireBus, .spiStart] else []) ++ [.spiSelect] ++
          (pre ++ cmdEvents SSD16xx_RAMWR) ++
          dataEvents (bitmapBytes color e.bkgColor f y width height) ++
          ([.spiUnselect] ++ (if e.ssd.mutualExclusion then [.spiReleaseBus] else [])),
          some ()⟩) ∧
    (bitmapBytes color e.bkgColor f y width height).length =
      ((e.window x y width height).xea - (e.window x y width height).xsa + 1) *
        ((e.window x y width height).ysa - (e.window x y width height).yea + 1) ∧
    (bitmapBytes color e.bkgColor f y width height).length =
      width * ((y + height - 1) / 4 - y / 4 + 1) ∧
    (dataEvents (bitmapBytes color e.bkgColor f y width height)).length =
      width * ((y + height - 1) / 4 - y / 4 + 1) ∧
    (∀ w, (columnBytes color e.bkgColor f y width height w).length =
      (y + height - 1) / 4 - y / 4 + 1) := by
  have hpass := window_pass e x y width height hc h4 hw hh hx hy
  obtain ⟨pre, hpre⟩ := setAddress_ends e.ssd _ _ _ _ hpass
  have hex := window_exact e x y width height hc hs hw hh hx hy
  have hlen := bitmapBytes_length color e.bkgColor f y width height
  unfold groupCount at hlen
  refine ⟨⟨pre, hpre, ?_⟩, ?_, hlen, ?_, ?_⟩
  · rw [drawBitmap_of_pass e color x y width height f hh hpass, hpre]
  · rw [hlen, hex]
    show _ = ((y + height + 3) / 4 - 1 - y / 4 + 1) * (e.width - 1 - x - (e.width - (x + width)) + 1)
    have h1 : (y + height + 3) / 4 - 1 - y / 4 + 1 = (y + height - 1) / 4 - y / 4 + 1 := by omega
    have h2 : e.width - 1 - x - (e.width - (x + width)) + 1 = width := by omega
    rw [h1, h2, Nat.mul_comm]
  · rw [dataEvents, List.length_map, hlen]
  · intro w
    simp [columnBytes, groupCount]

/-- Witness for C5: a 3x6 rectangle at `(5, 2)` touches two 4-row groups per column. -/
theorem drawBitmap_payload_length_witness :
    (bitmapBytes .black panel172x72.bkgColor (fun _ _ _ _ => true) 2 3 6).length = 6 ∧
    (bitmapBytes .black panel172x72.bkgColor (fun _ _ _ _ => true) 2 3 6).length =
      ((panel172x72.window 5 2 3 6).xea - (panel172x72.window 5 2 3 6).xsa + 1) *
        ((panel172x72.window 5 2 3 6).ysa - (panel172x72.window 5 2 3 6).yea + 1) :=
  ⟨by decide, (drawBitmap_payload_length panel172x72 .black 5 2 3 6 (fun _ _ _ _ => true)
    (by decide) (by decide) (by decide) (by decide) (by decide) (by decide) (by decide)).2.1⟩

/-! ## `EPD::fillDisplay` -/

/-- C6, as stated, fails: the constructor accepts a panel of width 0 and height 4 on the
SSD1606, its height is a positive multiple of 4, and `fillDisplay` requests the window
`ysa = uint16_t(0 - 1) = 65535`, so that the fatal check of `setAddress` stops the run
right after the chip select: no window is opened. -/
theorem fillDisplay_zero_width_counterexample :
    EPD.new (SSD1606 false) 0 4 tinyFont = ⟨[], some panel0x4⟩ ∧
    panel0x4.height % 4 = 0 ∧ 0 < panel0x4.height ∧
    panel0x4.fillWindow = ⟨0, 0, 65535, 0⟩ ∧
    panel0x4.fillDisplay .white = ⟨[.spiSelect], none⟩ :=
  ⟨rfl, by decide, by decide, by decide, by decide⟩

/-- C6, amended: on an accepted panel of width at least 1 whose height is a positive
multiple of 4 (and at most 1024, so that `height/4 - 1` fits the `uint8_t` parameter; on
the SSD1606 the height is at most 72), `fillDisplay(c)` completes, opens exactly one
address window, `setAddress(0, height/4 - 1, width - 1, 0)`, which passes the check and
ends with the write-RAM command, and then sends exactly `width * (height/4)` data bytes,
each equal to `c * 0x55`, before the chip unselect. -/
theorem fillDisplay_trace (e : EPD) (c : Color)
    (hc : e.width ≤ e.ssd.gates ∧ e.height ≤ e.ssd.sources) (hw : 1 ≤ e.width)
    (h4 : e.height % 4 = 0) (hpos : 0 < e.height) (hmax : e.height ≤ 1024) :
    e.fillWindow = ⟨0, e.height / 4 - 1, e.width - 1, 0⟩ ∧
    (∃ pre,
      (e.ssd.setAddress 0 (e.height / 4 - 1) (e.width - 1) 0).trace =
        pre ++ cmdEvents SSD16xx_RAMWR) ∧
    e.fillDisplay c =
      ⟨(if e.ssd.mutualExclusion then [.spiAcquireBus, .spiStart] else []) ++ [.spiSelect] ++
        ((e.ssd.setAddress 0 (e.height / 4 - 1) (e.width - 1) 0).trace ++
          List.replicate (e.width * (e.height / 4)) (.spiSend [c.val * 0x55])) ++
        ([.spiUnselect] ++ (if e.ssd.mutualExclusion then [.spiReleaseBus] else [])),
        some ()⟩ := by
  have hg := e.ssd.gates_u16
  have hs := e.ssd.sources_u16
  have hwin : e.fillWindow = ⟨0, e.height / 4 - 1, e.width - 1, 0⟩ := by
    simp only [EPD.fillWindow, Nat.shiftRight_eq_div_pow, Window.mk.injEq]
    refine ⟨trivial, ?_, ?_, trivial⟩ <;> omega
  have hpass : (0 < e.ssd.sources >>> 2 ∧ e.height / 4 - 1 < e.ssd.sources >>> 2 ∧
      e.width - 1 < e.ssd.gates ∧ 0 < e.ssd.gates) := by
    simp only [Nat.shiftRight_eq_div_pow]
    refine ⟨?_, ?_, ?_, ?_⟩ <;> omega
  have hn : (e.width * (e.height >>> 2)) % 4294967296 = e.width * (e.height / 4) := by
    have hsh : e.height >>> 2 = e.height / 4 := Nat.shiftRight_eq_div_pow e.height 2
    rw [hsh]
    apply Nat.mod_eq_of_lt
    have h1 : e.width * (e.height / 4) ≤ 65536 * 256 :=
      Nat.mul_le_mul (by omega) (by omega)
    omega
  refine ⟨hwin, setAddress_ends e.ssd _ _ _ _ hpass, ?_⟩
  rcases fillDisplay_shape e c with h | h
  · rw [h.1, hwin, hn, packColor_eq]
  · exact absurd (by rw [hwin]; exact hpass) h.2

/-- Witness for C6: `fillDisplay(white)` on the 172x72 panel opens the window covering the
whole SSD1606 RAM (x 0..17, y 171..0) and sends 3096 bytes `0xFF`. -/
theorem fillDisplay_trace_witness :
    panel172x72.fillDisplay .white =
      ⟨[.spiSelect] ++
        ((SSD1606 false).setAddress 0 17 171 0).trace ++
        List.replicate 3096 (.spiSend [0xFF]) ++ [.spiUnselect], some ()⟩ := by
  have h := (fillDisplay_trace panel172x72 .white (by decide) (by decide) (by decide)
    (by decide) (by decide)).2.2
  rw [h]
  simp only [List.append_assoc]
  rfl

/-! ## `SSD16xx::setAddress` and `SSD16xx::start` -/

/-- C7: on a driver with `gates() <= 255`, `setAddress` with in-range arguments
(`xsa`, `xea` being `uint8_t` values) completes and makes exactly these HAL calls:
command 0x44, data `xsa`, data `xea`; command 0x45, data `ysa`, data `yea` (one byte
each, no high byte); command 0x4E, data `xsa`; command 0x4F, data `ysa`; command 0x24.
Every command byte is framed by data/command line low before and high after it, and
the write-RAM command is the last thing sent. -/
theorem setAddress_trace_of_gates_le_255 (s : SSD16xx) (xsa xea ysa yea : Nat)
    (hg : s.gates ≤ 255) (hx1 : xsa < 256) (hx2 : xea < 256)
    (h1 : xsa < s.sources >>> 2) (h2 : xea < s.sources >>> 2)
    (h3 : ysa < s.gates) (h4 : yea < s.gates) :
    s.setAddress xsa xea ysa yea =
      ⟨[.palClearLine .dc, .spiSend [0x44], .palSetLine .dc, .spiSend [xsa], .spiSend [xea],
        .palClearLine .dc, .spiSend [0x45], .palSetLine .dc, .spiSend [ysa], .spiSend [yea],
        .palClearLine .dc, .spiSend [0x4E], .palSetLine .dc, .spiSend [xsa],
        .palClearLine .dc, .spiSend [0x4F], .palSetLine .dc, .spiSend [ysa],
        .palClearLine .dc, .spiSend [0x24], .palSetLine .dc], some ()⟩ := by
  have hy1 : ysa % 256 = ysa := Nat.mod_eq_of_lt (by omega)
  have hy2 : yea % 256 = yea := Nat.mod_eq_of_lt (by omega)
  have hg' : ¬ (s.gates > 255) := by omega
  simp [SSD16xx.setAddress, osalDbgAssert, h1, h2, h3, h4, hg', Run.bind_eq, Run.bind_ok,
    sendCmd_eq, sendData_eq, cmdEvents, Run.pure_eq, Nat.mod_eq_of_lt hx1, Nat.mod_eq_of_lt hx2,
    hy1, hy2, SSD16xx_RASTXSE, SSD16xx_RASTYSE, SSD16xx_RASTXAC, SSD16xx_RASTYAC, SSD16xx_RAMWR]

/-- Witness for C7: the full-panel window of the SSD1606. -/
theorem setAddress_trace_of_gates_le_255_witness :
    (SSD1606 false).setAddress 0 17 171 0 =
      ⟨[.palClearLine .dc, .spiSend [0x44], .palSetLine .dc, .spiSend [0], .spiSend [17],
        .palClearLine .dc, .spiSend [0x45], .palSetLine .dc, .spiSend [171], .spiSend [0],
        .palClearLine .dc, .spiSend [0x4E], .palSetLine .dc, .spiSend [0],
        .palClearLine .dc, .spiSend [0x4F], .palSetLine .dc, .spiSend [171],
        .palClearLine .dc, .spiSend [0x24], .palSetLine .dc], some ()⟩ :=
  setAddress_trace_of_gates_le_255 (SSD1606 false) 0 17 171 0 (by decide) (by decide)
    (by decide) (by decide) (by decide) (by decide) (by decide)

/-- C8: `setAddress` stops at its fatal check if and only if `xsa >= sources()/4` or
`xea >= sources()/4` or `ysa >= gates()` or `yea >= gates()`; and when it stops there,
no HAL call has been made, so no command byte and no data byte has been sent. -/
theorem setAddress_halts_iff (s : SSD16xx) (xsa xea ysa yea : Nat) :
    ((s.setAddress xsa xea ysa yea).val = none ↔
      (xsa ≥ s.sources / 4 ∨ xea ≥ s.sources / 4 ∨ ysa ≥ s.gates ∨ yea ≥ s.gates)) ∧
    ((s.setAddress xsa xea ysa yea).val = none → (s.setAddress xsa xea ysa yea).trace = []) := by
  refine ⟨?_, setAddress_trace_of_halt s xsa xea ysa yea⟩
  rw [setAddress_val]
  have hd : s.sources >>> 2 = s.sources / 4 := by simp [Nat.shiftRight_eq_div_pow]
  rw [hd]
  by_cases hc : xsa < s.sources / 4 ∧ xea < s.sources / 4 ∧ ysa < s.gates ∧ yea < s.gates
  · simp only [hc, and_self, if_true]
    constructor
    · intro h
      cases h
    · intro h
      omega
  · simp only [hc, if_false, true_iff]
    omega

/-- Witness for C8: on the SSD1606 the window end `xea = 18` is out of range, and the
failing `setAddress` has made no HAL call. -/
theorem setAddress_halts_iff_witness :
    ((SSD1606 false).setAddress 0 18 171 0).val = none ∧
    ((SSD1606 false).setAddress 0 18 171 0).trace = [] :=
  ⟨by decide, (setAddress_halts_iff (SSD1606 false) 0 18 171 0).2 (by decide)⟩

/-- C9: `start()` on a driver whose `sendLUTData()` completes makes these HAL calls, in
this order: the data/command pin is configured, then the reset pulse (reset low, 10 ms,
reset high, 10 ms), the bus is acquired (under mutual exclusion) and started, one chip
select, command 0x11 with data 0x01, command 0x2C with data 0xA0, command 0x3C with data
0x63, command 0x22 with data 0xC4, command 0x32 followed by the HAL calls of the
driver's `sendLUTData()`, one chip unselect (and the bus release under mutual
exclusion), and nothing else. For the SSD1606 the calls of `sendLUTData()` are one
transmission of the 90 bytes of `LUTData`, in table order; so, leaving aside the
housekeeping calls (pin configuration, bus acquire / start / release), which transmit
nothing, the trace of `start()` on the SSD1606 is the reset pulse, one chip select, the
five commands with their data in this order, and one chip unselect. -/
theorem start_trace :
    (∀ s : SSD16xx, s.sendLUTData.val = some () →
      s.start =
        ⟨[.palSetLineMode .dc,
          .palClearLine .rst, .chThdSleepMilliseconds 10,
          .palSetLine .rst, .chThdSleepMilliseconds 10] ++
          (if s.mutualExclusion then [.spiAcquireBus] else []) ++
          [.spiStart, .spiSelect,
          .palClearLine .dc, .spiSend [0x11], .palSetLine .dc, .spiSend [0x01],
          .palClearLine .dc, .spiSend [0x2C], .palSetLine .dc, .spiSend [0xA0],
          .palClearLine .dc, .spiSend [0x3C], .palSetLine .dc, .spiSend [0x63],
          .palClearLine .dc, .spiSend [0x22], .palSetLine .dc, .spiSend [0xC4],
          .palClearLine .dc, .spiSend [0x32], .palSetLine .dc] ++
          s.sendLUTData.trace ++
          [.spiUnselect] ++
          (if s.mutualExclusion then [.spiReleaseBus] else []), some ()⟩) ∧
    (∀ m : Bool, (SSD1606 m).sendLUTData = ⟨[.spiSend SSD1606.LUTData], some ()⟩) ∧
    SSD1606.LUTData.length = 90 ∧
    (∀ m : Bool, protocolView (SSD1606 m).start.trace =
      [.palClearLine .rst, .chThdSleepMilliseconds 10,
        .palSetLine .rst, .chThdSleepMilliseconds 10,
        .spiSelect,
        .palClearLine .dc, .spiSend [0x11], .palSetLine .dc, .spiSend [0x01],
        .palClearLine .dc, .spiSend [0x2C], .palSetLine .dc, .spiSend [0xA0],
        .palClearLine .dc, .spiSend [0x3C], .palSetLine .dc, .spiSend [0x63],
        .palClearLine .dc, .spiSend [0x22], .palSetLine .dc, .spiSend [0xC4],
        .palClearLine .dc, .spiSend [0x32], .palSetLine .dc,
        .spiSend SSD1606.LUTData,
        .spiUnselect]) :=
  ⟨fun s hs => start_eq s hs, fun _ => rfl, by decide, fun m => by cases m <;> rfl⟩

/-- Witness for C9: `start()` of the SSD1606 without bus mutual exclusion. -/
theorem start_trace_witness :
    (SSD1606 false).start =
      ⟨[.palSetLineMode .dc,
        .palClearLine .rst, .chThdSleepMilliseconds 10,
        .palSetLine .rst, .chThdSleepMilliseconds 10,
        .spiStart, .spiSelect,
        .palClearLine .dc, .spiSend [0x11], .palSetLine .dc, .spiSend [0x01],
        .palClearLine .dc, .spiSend [0x2C], .palSetLine .dc, .spiSend [0xA0],
        .palClearLine .dc, .spiSend [0x3C], .palSetLine .dc, .spiSend [0x63],
        .palClearLine .dc, .spiSend [0x22], .palSetLine .dc, .spiSend [0xC4],
        .palClearLine .dc, .spiSend [0x32], .palSetLine .dc,
        .spiSend SSD1606.LUTData,
        .spiUnselect], some ()⟩ :=
  start_trace.1 (SSD1606 false) rfl

/-! ## The chip-select bracket -/

/-- C10, as stated, fails on the path where the check of `setAddress` fails: the run of
`drawFilledRect(black, 0, 0, 1, 100)` on the 172x72 panel stops at the fatal check with
the trace `[spiSelect]`; the bracket has been opened and is never closed. -/
theorem bracket_left_open_counterexample :
    (panel172x72.drawFilledRect .black 0 0 1 100).val = none ∧
    (panel172x72.drawFilledRect .black 0 0 1 100).trace = [.spiSelect] ∧
    bracketPhase (panel172x72.drawFilledRect .black 0 0 1 100).trace = .inside ∧
    bracketPhase (panel172x72.drawFilledRect .black 0 0 1 100).trace ≠ .after := by
  decide

/-- C10, amended: every call of `start` (for a driver whose `sendLUTData()` completes
and neither selects nor unselects the chip), `stop`, `update` (as soon as the busy line
reads low), and every call of `fillDisplay` and `drawBitmap` (hence `drawFilledRect`)
that completes, has a trace with exactly one chip select followed later by exactly one
chip unselect, with every command and data byte between the two and no nesting. A call
of `fillDisplay` or `drawBitmap` whose `setAddress` check fails stops inside the
bracket: its trace ends with the chip select, no byte has been sent and no chip
unselect is issued. -/
theorem bracket_closed_on_completion :
    (∀ s : SSD16xx, s.sendLUTData.val = some () →
      (∀ ev ∈ s.sendLUTData.trace, Event.inner ev = true) →
      s.start.val = some () ∧ bracketPhase s.start.trace = .after) ∧
    (∀ s : SSD16xx, s.stop.val = some () ∧ bracketPhase s.stop.trace = .after) ∧
    (∀ (s : SSD16xx) (busy : Nat → Bool) (n : Nat), busy n = false →
      ∃ t, s.update busy (n + 1) = some t ∧ bracketPhase t = .after) ∧
    (∀ (e : EPD) (c : Color), (e.fillDisplay c).val = some () →
      bracketPhase (e.fillDisplay c).trace = .after) ∧
    (∀ (e : EPD) (c : Color) (x y width height : Nat) (f : BmpFnc),
      (e.drawBitmap c x y width height f).val = some () →
      bracketPhase (e.drawBitmap c x y width height f).trace = .after) ∧
    (∀ (e : EPD) (c : Color), (e.fillDisplay c).val = none →
      (e.fillDisplay c).trace =
        (if e.ssd.mutualExclusion then [.spiAcquireBus, .spiStart] else []) ++ [.spiSelect] ∧
      bracketPhase (e.fillDisplay c).trace = .inside) ∧
    (∀ (e : EPD) (c : Color) (x y width height : Nat) (f : BmpFnc),
      (e.drawBitmap c x y width height f).val = none →
      (e.drawBitmap c x y width height f).trace =
        (if e.ssd.mutualExclusion then [.spiAcquireBus, .spiStart] else []) ++ [.spiSelect] ∧
      bracketPhase (e.drawBitmap c x y width height f).trace = .inside) := by
  refine ⟨?_, ?_, ?_, ?_, ?_, ?_, ?_⟩
  · intro s hv hin
    rw [start_eq s hv]
    refine ⟨rfl, ?_⟩
    have h := bracketPhase_closed
      ([.palSetLineMode .dc, .palClearLine .rst, .chThdSleepMilliseconds 10,
        .palSetLine .rst, .chThdSleepMilliseconds 10] ++
        (if s.mutualExclusion then [.spiAcquireBus] else []) ++ [.spiStart])
      ([.palClearLine .dc, .spiSend [0x11], .palSetLine .dc, .spiSend [0x01],
        .palClearLine .dc, .spiSend [0x2C], .palSetLine .dc, .spiSend [0xA0],
        .palClearLine .dc, .spiSend [0x3C], .palSetLine .dc, .spiSend [0x63],
        .palClearLine .dc, .spiSend [0x22], .palSetLine .dc, .spiSend [0xC4],
        .palClearLine .dc, .spiSend [0x32], .palSetLine .dc] ++ s.sendLUTData.trace)
      (if s.mutualExclusion then [.spiReleaseBus] else [])
      (by cases s.mutualExclusion <;> simp [Event.passive])
      (by
        intro ev hev
        rcases List.mem_append.mp hev with hev | hev
        · exact inner_start_commands ev hev
        · exact hin ev hev)
      (passive_release _)
    simpa [List.append_assoc] using h
  · intro s
    rw [stop_eq s]
    refine ⟨rfl, ?_⟩
    have h := bracketPhase_closed
      (if s.mutualExclusion then [.spiAcquireBus, .spiStart] else [])
      [.palClearLine .dc, .spiSend [0x22], .palSetLine .dc, .spiSend [0x03],
        .palClearLine .dc, .spiSend [0x10], .palSetLine .dc, .spiSend [0x01]]
      ([.spiStop] ++ (if s.mutualExclusion then [.spiReleaseBus] else []))
      (passive_acquire _)
      (by simp [Event.inner])
      (by cases s.mutualExclusion <;> simp [Event.passive])
    simpa [List.append_assoc] using h
  · intro s busy n hb
    obtain ⟨t, ht, hp⟩ := waitReady_terminates busy n 0 (by rw [Nat.zero_add]; exact hb)
    refine ⟨(s.updateCmd).trace ++ t, ?_, ?_⟩
    · rw [SSD16xx.update, ht]
      rfl
    · rw [updateCmd_eq]
      have h := bracketPhase_closed
        (if s.mutualExclusion then [.spiAcquireBus, .spiStart] else [])
        [.palClearLine .dc, .spiSend [0x20], .palSetLine .dc]
        ((if s.mutualExclusion then [.spiReleaseBus] else []) ++ t)
        (passive_acquire _)
        (by simp [Event.inner])
        (by
          intro ev hev
          rcases List.mem_append.mp hev with hev | hev
          · exact passive_release _ ev hev
          · exact hp ev hev)
      simpa [List.append_assoc] using h
  · intro e c hv
    rcases fillDisplay_shape e c with h | h
    · rw [h.1]
      apply bracketPhase_closed _ _ _ (passive_acquire _) _ (passive_release _)
      intro ev hev
      rcases List.mem_append.mp hev with hev | hev
      · exact inner_setAddress _ _ _ _ _ ev hev
      · rw [List.eq_of_mem_replicate hev]
        rfl
    · rw [h.1] at hv
      cases hv
  · intro e c x y width height f hv
    rcases drawBitmap_shape e c x y width height f with ⟨mid, hmid, h⟩ | h
    · rw [h]
      exact bracketPhase_closed _ _ _ (passive_acquire _) hmid (passive_release _)
    · rw [h] at hv
      cases hv
  · intro e c hv
    rcases fillDisplay_shape e c with h | h
    · rw [h.1] at hv
      cases hv
    · rw [h.1]
      refine ⟨rfl, ?_⟩
      have := bracketPhase_open _ [] (passive_acquire e.ssd.mutualExclusion)
        (fun ev hev => by cases hev)
      simpa using this
  · intro e c x y width height f hv
    rcases drawBitmap_shape e c x y width height f with ⟨mid, _, h⟩ | h
    · rw [h] at hv
      cases hv
    · rw [h]
      refine ⟨rfl, ?_⟩
      have := bracketPhase_open _ [] (passive_acquire e.ssd.mutualExclusion)
        (fun ev hev => by cases hev)
      simpa using this

/-- Witness for C10 (amended): `start` of the SSD1606 and a completed `drawBitmap` on the
172x72 panel each form one closed bracket. -/
theorem bracket_closed_on_completion_witness :
    bracketPhase (SSD1606 true).start.trace = .after ∧
    bracketPhase
      (panel172x72.drawBitmap .black 0 1 2 5 (fun _ _ w h => (w + h) % 2 == 0)).trace =
        .after :=
  ⟨(bracket_closed_on_completion.1 (SSD1606 true) rfl (by decide)).2,
    bracket_closed_on_completion.2.2.2.2.1 panel172x72 .black 0 1 2 5
      (fun _ _ w h => (w + h) % 2 == 0) (by decide)⟩

end EInk

/-! # Text: helper lemmas -/

namespace EInk

/-! ## The wait loop of `SSD16xx::update` -/

/-- HAL calls of the wait loop when the busy line reads high `n` times and then low. -/
theorem waitReady_exact (busy : Nat → Bool) :
    ∀ n i fuel, (∀ j, j < n → busy (i + j) = true) → busy (i + n) = false → n < fuel →
      SSD16xx.waitReady busy fuel i =
        some ((List.replicate n
          [Event.palReadLine .busy true, Event.chThdSleepMilliseconds 10]).flatten ++
          [Event.palReadLine .busy false]) := by
  intro n
  induction n with
  | zero =>
    intro i fuel _ hlow hf
    obtain ⟨f, rfl⟩ : ∃ f, fuel = f + 1 := ⟨fuel - 1, by omega⟩
    rw [Nat.add_zero] at hlow
    rw [SSD16xx.waitReady]
    simp [hlow]
  | succ n ih =>
    intro i fuel hhigh hlow hf
    obtain ⟨f, rfl⟩ : ∃ f, fuel = f + 1 := ⟨fuel - 1, by omega⟩
    have h0 : busy i = true := by
      have := hhigh 0 (by omega)
      rwa [Nat.add_zero] at this
    have hrec := ih (i + 1) f
      (fun j hj => by
        have := hhigh (j + 1) (by omega)
        rwa [show i + (j + 1) = i + 1 + j by omega] at this)
      (by rwa [show i + (n + 1) = i + 1 + n by omega] at hlow)
      (by omega)
    rw [SSD16xx.waitReady, if_pos h0, hrec]
    rfl

/-- The wait loop does not end while the busy line keeps reading high. -/
theorem waitReady_none (busy : Nat → Bool) (hb : ∀ j, busy j = true) :
    ∀ fuel i, SSD16xx.waitReady busy fuel i = none := by
  intro fuel
  induction fuel with
  | zero =>
    intro i
    rfl
  | succ f ih =>
    intro i
    rw [SSD16xx.waitReady, if_pos (hb i), ih]
    rfl

/-! ## `EPD::getTextWidth` -/

theorem textGlyphs_nil (fntp : List Nat) : textGlyphs fntp [] = [] := rfl

theorem textGlyphs_zero (fntp : List Nat) (str : List Int) :
    textGlyphs fntp (0 :: str) = [] := rfl

theorem textGlyphs_in (fntp : List Nat) (c : Int) (str : List Int) (hc : c ≠ 0)
    (hin : Font.inRange fntp c = true) :
    textGlyphs fntp (c :: str) =
      (Font.charWidth fntp (Font.index fntp c), Font.charOffset fntp (Font.index fntp c)) ::
        textGlyphs fntp str := by
  simp [textGlyphs, cstr, List.takeWhile_cons, hc, hin]

theorem textGlyphs_out (fntp : List Nat) (c : Int) (str : List Int) (hc : c ≠ 0)
    (hout : ¬ Font.inRange fntp c = true) :
    textGlyphs fntp (c :: str) = textGlyphs fntp str := by
  simp [textGlyphs, cstr, List.takeWhile_cons, hc, hout]

theorem textWidth_nil (fntp : List Nat) : textWidth fntp [] = 0 := rfl

theorem textWidth_zero (fntp : List Nat) (str : List Int) : textWidth fntp (0 :: str) = 0 := rfl

theorem textWidth_in (fntp : List Nat) (c : Int) (str : List Int) (hc : c ≠ 0)
    (hin : Font.inRange fntp c = true) :
    textWidth fntp (c :: str) = Font.charWidth fntp (Font.index fntp c) + textWidth fntp str := by
  simp [textWidth, textGlyphs_in fntp c str hc hin]

theorem textWidth_out (fntp : List Nat) (c : Int) (str : List Int) (hc : c ≠ 0)
    (hout : ¬ Font.inRange fntp c = true) :
    textWidth fntp (c :: str) = textWidth fntp str := by
  simp [textWidth, textGlyphs_out fntp c str hc hout]

theorem charWidth_lt (fntp : List Nat) (i : Nat) : Font.charWidth fntp i < 256 :=
  Nat.mod_lt _ (by decide)

/-- The loop of `getTextWidth` adds the widths of the representable characters to its
accumulator, in `size_t` arithmetic. -/
theorem getTextWidthLoop_eq (fntp : List Nat) :
    ∀ str acc, acc < 4294967296 →
      getTextWidthLoop fntp str acc = (acc + textWidth fntp str) % 4294967296 := by
  intro str
  induction str with
  | nil =>
    intro acc hacc
    rw [getTextWidthLoop, textWidth_nil, Nat.add_zero, Nat.mod_eq_of_lt hacc]
  | cons c str ih =>
    intro acc hacc
    rw [getTextWidthLoop]
    by_cases hc : c = 0
    · subst hc
      rw [if_pos rfl, textWidth_zero, Nat.add_zero, Nat.mod_eq_of_lt hacc]
    · rw [if_neg hc]
      by_cases hin : Font.inRange fntp c = true
      · rw [if_pos hin, ih _ (Nat.mod_lt _ (by decide)), textWidth_in fntp c str hc hin]
        omega
      · rw [if_neg hin, ih _ hacc, textWidth_out fntp c str hc hin]

theorem getTextWidth_eq (fntp : List Nat) (str : List Int) :
    EPD.getTextWidth fntp str = textWidth fntp str % 4294967296 := by
  rw [EPD.getTextWidth, getTextWidthLoop_eq fntp str 0 (by decide), Nat.zero_add]

theorem cstr_append (a b : List Int) (ha : ∀ c ∈ a, c ≠ 0) : cstr (a ++ b) = a ++ cstr b := by
  induction a with
  | nil => rfl
  | cons c a ih =>
    have hc : c ≠ 0 := ha c (List.mem_cons_self c a)
    have := ih (fun d hd => ha d (List.mem_cons_of_mem c hd))
    simp only [cstr] at this ⊢
    simp [List.takeWhile_cons, hc, this]

theorem cstr_of_nul_free (a : List Int) (ha : ∀ c ∈ a, c ≠ 0) : cstr a = a := by
  have := cstr_append a [] ha
  simpa [cstr] using this

theorem textWidth_append (fntp : List Nat) (a b : List Int) (ha : ∀ c ∈ a, c ≠ 0) :
    textWidth fntp (a ++ b) = textWidth fntp a + textWidth fntp b := by
  simp [textWidth, textGlyphs, cstr_append a b ha, cstr_of_nul_free a ha]

theorem textWidth_perm (fntp : List Nat) (a b : List Int) (ha : ∀ c ∈ a, c ≠ 0)
    (hp : List.Perm a b) : textWidth fntp a = textWidth fntp b := by
  have hb : ∀ c ∈ b, c ≠ 0 := fun c hc => ha c (hp.symm.subset hc)
  simp only [textWidth, textGlyphs, cstr_of_nul_free a ha, cstr_of_nul_free b hb]
  exact (((hp.filter _).map _).map _).sum_eq



/-! ## The glyph bitmap predicate -/

set_option maxRecDepth 100000 in
theorem and_F8 : ∀ v, v < 256 → v &&& 0xF8 = 8 * (v / 8) := by
  decide

set_option maxRecDepth 100000 in
theorem and_F8_wide : ∀ v, v < 256 → 249 ≤ v → (v + 7) &&& 0xF8 = 0 := by
  decide

theorem and_seven (x : Nat) : x &&& 7 = x % 8 := Nat.and_pow_two_sub_one_eq_mod x 3

/-- For widths up to 248 the predicate reads bit `w mod 8` of the byte at
`offset + h * ceil(width / 8) + w / 8`. -/
theorem glyphFnc_narrow (fntp : List Nat) (offset width height w h : Nat)
    (hw : width ≤ 248) (hcol : w < width) :
    glyphFnc fntp offset width height w h =
      decide ((Font.byte fntp (offset + h * ((width + 7) / 8) + w / 8) / 2 ^ (w % 8)) % 2 = 1) := by
  have h1 : (width + 7) &&& 0xF8 = 8 * ((width + 7) / 8) := and_F8 _ (by omega)
  have h2 : w &&& 0xF8 = 8 * (w / 8) := and_F8 _ (by omega)
  have h3 : (h * (8 * ((width + 7) / 8)) + 8 * (w / 8)) >>> 3 = h * ((width + 7) / 8) + w / 8 := by
    rw [Nat.shiftRight_eq_div_pow, Nat.mul_left_comm, ← Nat.mul_add]
    exact Nat.mul_div_cancel_left _ (by decide)
  unfold glyphFnc
  simp only [h1, h2, h3, and_seven, Nat.and_one_is_mod, Nat.shiftRight_eq_div_pow, Nat.add_assoc]
  by_cases hb : (Font.byte fntp (offset + (h * ((width + 7) / 8) + w / 8)) / 2 ^ (w % 8)) % 2 = 1
  · simp [hb]
  · have : (Font.byte fntp (offset + (h * ((width + 7) / 8) + w / 8)) / 2 ^ (w % 8)) % 2 = 0 := by
      omega
    simp [this]

/-- For widths from 249 to 255 the mask `0xF8` cuts the row stride down to 0: the predicate
reads the byte at `offset + w / 8` whatever the row. -/
theorem glyphFnc_wide (fntp : List Nat) (offset width height w h : Nat)
    (hw1 : 249 ≤ width) (hw2 : width ≤ 255) (hcol : w < width) :
    glyphFnc fntp offset width height w h =
      decide ((Font.byte fntp (offset + w / 8) / 2 ^ (w % 8)) % 2 = 1) := by
  have h1 : (width + 7) &&& 0xF8 = 0 := and_F8_wide width (by omega) hw1
  have h2 : w &&& 0xF8 = 8 * (w / 8) := and_F8 _ (by omega)
  have h3 : (h * 0 + 8 * (w / 8)) >>> 3 = w / 8 := by
    rw [Nat.shiftRight_eq_div_pow, Nat.mul_zero, Nat.zero_add]
    exact Nat.mul_div_cancel_left _ (by decide)
  unfold glyphFnc
  simp only [h1, h2, h3, and_seven, Nat.and_one_is_mod, Nat.shiftRight_eq_div_pow]
  by_cases hb : (Font.byte fntp (offset + w / 8) / 2 ^ (w % 8)) % 2 = 1
  · simp [hb]
  · have : (Font.byte fntp (offset + w / 8) / 2 ^ (w % 8)) % 2 = 0 := by omega
    simp [this]

/-! ## The loop of `EPD::drawText` -/

/-- The loop of `drawText` is the program that draws the placed glyphs in order. -/
theorem textLoop_eq (e : EPD) (color : Color) (y height : Nat) (hW : e.width < 65536) :
    ∀ str x, EPD.textLoop e color y height str x =
      runCalls e color y height (placeGlyphs e.width x (textGlyphs e.fntp str)) := by
  intro str
  induction str with
  | nil =>
    intro x
    rfl
  | cons c str ih =>
    intro x
    rw [EPD.textLoop]
    by_cases hc : c = 0
    · subst hc
      rw [if_pos rfl, textGlyphs_zero]
      rfl
    · rw [if_neg hc]
      by_cases hin : Font.inRange e.fntp c = true
      · rw [if_pos hin, textGlyphs_in e.fntp c str hc hin, placeGlyphs]
        by_cases hfit : x + Font.charWidth e.fntp (Font.index e.fntp c) > e.width
        · rw [if_pos hfit, if_neg (by omega)]
          rfl
        · rw [if_neg hfit, if_pos (by omega), runCalls,
            Nat.mod_eq_of_lt (by omega), ih]
      · rw [if_neg hin, textGlyphs_out e.fntp c str hc hin, ih]

/-- The alignment `switch` computes the aligned start position, as long as the text
width fits `size_t`. -/
theorem alignX_eq (e : EPD) (x : Nat) (str : List Int) (align : Align) (hx : x < 65536)
    (hT : textWidth e.fntp str < 4294967296) :
    EPD.alignX e x str align = alignStart x (textWidth e.fntp str) align := by
  have hg : EPD.getTextWidth e.fntp str = textWidth e.fntp str := by
    rw [getTextWidth_eq, Nat.mod_eq_of_lt hT]
  cases align
  · rfl
  · simp only [EPD.alignX, alignStart, hg, Nat.shiftRight_eq_div_pow]
    split <;> omega
  · simp only [EPD.alignX, alignStart, hg]
    split <;> omega

theorem alignX_le (e : EPD) (x : Nat) (str : List Int) (align : Align) (hx : x < 65536) :
    EPD.alignX e x str align ≤ x := by
  cases align
  · exact Nat.le_refl x
  · simp only [EPD.alignX]
    split <;> omega
  · simp only [EPD.alignX]
    split <;> omega

theorem drawText_eq (e : EPD) (color : Color) (x y : Nat) (str : List Int) (align : Align)
    (hW : e.width < 65536) (hy : y + Font.height e.fntp ≤ e.height) :
    e.drawText color x y str align =
      runCalls e color y (Font.height e.fntp)
        (placeGlyphs e.width (EPD.alignX e x str align) (textGlyphs e.fntp str)) := by
  rw [EPD.drawText, if_neg (by omega), textLoop_eq e color y _ hW]


/-! ## Placement of glyphs -/

theorem placeGlyphs_length_le (W : Nat) :
    ∀ gs x0, (placeGlyphs W x0 gs).length ≤ gs.length := by
  intro gs
  induction gs with
  | nil =>
    intro x0
    exact Nat.le_refl 0
  | cons g rest ih =>
    intro x0
    rw [placeGlyphs]
    split
    · exact Nat.succ_le_succ (ih _)
    · exact Nat.zero_le _

/-- The `i`-th placed glyph starts where the widths of the glyphs before it end, and it
ends inside the panel. -/
theorem placeGlyphs_get (W : Nat) :
    ∀ gs x0 i, i < (placeGlyphs W x0 gs).length →
      (placeGlyphs W x0 gs)[i]? =
        some ⟨x0 + ((gs.take i).map Prod.fst).sum, (gs.getD i (0, 0)).1, (gs.getD i (0, 0)).2⟩ ∧
      x0 + ((gs.take (i + 1)).map Prod.fst).sum ≤ W := by
  intro gs
  induction gs with
  | nil =>
    intro x0 i hi
    simp [placeGlyphs] at hi
  | cons g rest ih =>
    intro x0 i hi
    rw [placeGlyphs] at hi ⊢
    by_cases hfit : x0 + g.1 ≤ W
    · rw [if_pos hfit] at hi ⊢
      cases i with
      | zero =>
        simp
        exact hfit
      | succ i =>
        have hi2 : i < (placeGlyphs W (x0 + g.1) rest).length := by
          simpa using hi
        obtain ⟨h1, h2⟩ := ih (x0 + g.1) i hi2
        constructor
        · simp only [List.getElem?_cons_succ, h1, List.take_succ_cons, List.map_cons,
            List.sum_cons, List.getD_cons_succ, Nat.add_assoc]
        · simp only [List.take_succ_cons, List.map_cons, List.sum_cons]
          omega
    · rw [if_neg hfit] at hi
      simp at hi

/-- Placement stops early only at a glyph that would end beyond the panel. -/
theorem placeGlyphs_stop (W : Nat) :
    ∀ gs x0, (placeGlyphs W x0 gs).length < gs.length →
      W < x0 + ((gs.take ((placeGlyphs W x0 gs).length + 1)).map Prod.fst).sum := by
  intro gs
  induction gs with
  | nil =>
    intro x0 h
    simp at h
  | cons g rest ih =>
    intro x0 h
    rw [placeGlyphs] at h ⊢
    by_cases hfit : x0 + g.1 ≤ W
    · rw [if_pos hfit] at h ⊢
      have h2 : (placeGlyphs W (x0 + g.1) rest).length < rest.length := by
        simpa using h
      have := ih (x0 + g.1) h2
      simp only [List.length_cons, List.take_succ_cons, List.map_cons, List.sum_cons]
      omega
    · rw [if_neg hfit]
      simp
      omega

theorem covered_nil (col : Nat) : ¬ covered [] col := by
  intro h
  obtain ⟨g, hg, _⟩ := h
  cases hg

theorem covered_cons (g : GlyphCall) (calls : List GlyphCall) (col : Nat) :
    covered (g :: calls) col ↔ (g.x ≤ col ∧ col < g.x + g.width) ∨ covered calls col := by
  simp [covered]

/-- When the whole text fits, every glyph is placed and the calls cover exactly the
columns from the start position to the start position plus the text width. -/
theorem placeGlyphs_fit (W : Nat) :
    ∀ gs x0, x0 + (gs.map Prod.fst).sum ≤ W →
      (placeGlyphs W x0 gs).length = gs.length ∧
      ∀ col, covered (placeGlyphs W x0 gs) col ↔
        x0 ≤ col ∧ col < x0 + (gs.map Prod.fst).sum := by
  intro gs
  induction gs with
  | nil =>
    intro x0 _
    refine ⟨rfl, fun col => ?_⟩
    simp only [placeGlyphs, List.map_nil, List.sum_nil, Nat.add_zero]
    constructor
    · intro h
      exact absurd h (covered_nil col)
    · intro h
      omega
  | cons g rest ih =>
    intro x0 hfit
    simp only [List.map_cons, List.sum_cons] at hfit ⊢
    obtain ⟨hlen, hcov⟩ := ih (x0 + g.1) (by omega)
    rw [placeGlyphs, if_pos (by omega)]
    refine ⟨by simp [hlen], fun col => ?_⟩
    rw [covered_cons, hcov col]
    show (x0 ≤ col ∧ col < x0 + g.1) ∨ _ ↔ _
    omega

theorem placeGlyphs_mem (W : Nat) :
    ∀ gs x0 g, g ∈ placeGlyphs W x0 gs → g.x + g.width ≤ W ∧ (g.width, g.offset) ∈ gs := by
  intro gs
  induction gs with
  | nil =>
    intro x0 g hg
    cases hg
  | cons p rest ih =>
    intro x0 g hg
    rw [placeGlyphs] at hg
    by_cases hfit : x0 + p.1 ≤ W
    · rw [if_pos hfit] at hg
      rcases List.mem_cons.mp hg with h | h
      · subst h
        exact ⟨hfit, List.mem_cons_self _ _⟩
      · obtain ⟨h1, h2⟩ := ih _ g h
        exact ⟨h1, List.mem_cons_of_mem _ h2⟩
    · rw [if_neg hfit] at hg
      cases hg

/-- A sequence of glyph calls that all lie inside an accepted panel (source count a
multiple of 4) and have positive width and height runs to completion. -/
theorem runCalls_complete (e : EPD) (color : Color) (y height : Nat)
    (hc : e.width ≤ e.ssd.gates ∧ e.height ≤ e.ssd.sources) (h4 : e.ssd.sources % 4 = 0)
    (hh : 1 ≤ height) (hy : y + height ≤ e.height) :
    ∀ calls : List GlyphCall, (∀ g ∈ calls, 1 ≤ g.width ∧ g.x + g.width ≤ e.width) →
      (runCalls e color y height calls).val = some () := by
  intro calls
  induction calls with
  | nil =>
    intro _
    rfl
  | cons g rest ih =>
    intro hall
    obtain ⟨hw, hx⟩ := hall g (List.mem_cons_self g rest)
    have hpass := window_pass e g.x y g.width height hc h4 hw hh hx hy
    rw [runCalls, Run.bind_eq, drawBitmap_of_pass e color g.x y g.width height _ hh hpass,
      Run.bind_ok]
    exact ih (fun g' hg' => hall g' (List.mem_cons_of_mem g hg'))

end EInk

/-! # Properties of the specification: update and text -/

namespace EInk

/-! ## `SSD16xx::update` -/

/-- C11: `update()` never holds the bus while waiting. When the busy line reads high `n`
times and then low, the HAL calls of `update()` are: (bus acquire and start under mutual
exclusion,) chip select, the single command byte 0x20 framed by data/command low and
high, no data byte, chip unselect (and bus release under mutual exclusion), and only then
the reads of the busy line: `n` times a read returning high followed by one 10 ms sleep,
and a last read returning low, after which `update()` returns. Nothing is transmitted
after the first read, and there is no sleep when the line is low at the first read. -/
theorem update_trace (s : SSD16xx) (busy : Nat → Bool) (n fuel : Nat)
    (hhigh : ∀ j, j < n → busy j = true) (hlow : busy n = false) (hf : n < fuel) :
    s.update busy fuel =
      some ((if s.mutualExclusion then [.spiAcquireBus, .spiStart] else []) ++
        [.spiSelect, .palClearLine .dc, .spiSend [0x20], .palSetLine .dc, .spiUnselect] ++
        (if s.mutualExclusion then [.spiReleaseBus] else []) ++
        ((List.replicate n
          [Event.palReadLine .busy true, Event.chThdSleepMilliseconds 10]).flatten ++
          [.palReadLine .busy false])) := by
  have hw := waitReady_exact busy n 0 fuel
    (fun j hj => by rw [Nat.zero_add]; exact hhigh j hj)
    (by rw [Nat.zero_add]; exact hlow) hf
  rw [SSD16xx.update, hw, updateCmd_eq]
  rfl

/-- Witness for C11: the busy line reads high twice, then low. -/
theorem update_trace_witness :
    (SSD1606 false).update (fun i => decide (i < 2)) 5 =
      some [.spiSelect, .palClearLine .dc, .spiSend [0x20], .palSetLine .dc, .spiUnselect,
        .palReadLine .busy true, .chThdSleepMilliseconds 10,
        .palReadLine .busy true, .chThdSleepMilliseconds 10,
        .palReadLine .busy false] :=
  update_trace (SSD1606 false) (fun i => decide (i < 2)) 2 5 (by decide) (by decide)
    (by decide)

/-! ## `EPD::getTextWidth` -/

/-- C18: for every font image and every non-NUL character `c`, the width of the string
`"c"` is the `width` field of `char_table[c - first_char]` when
`first_char <= c <= last_char`, and 0 otherwise. -/
theorem getTextWidth_single (fntp : List Nat) (c : Int) (hc : c ≠ 0) :
    EPD.getTextWidth fntp [c] =
      if (Font.first_char fntp : Int) ≤ c ∧ c ≤ (Font.last_char fntp : Int)
      then Font.charWidth fntp (c - (Font.first_char fntp : Int)).toNat else 0 := by
  rw [getTextWidth_eq]
  by_cases hin : (Font.first_char fntp : Int) ≤ c ∧ c ≤ (Font.last_char fntp : Int)
  · have hr : Font.inRange fntp c = true := by simp [Font.inRange, hin.1, hin.2]
    rw [if_pos hin, textWidth_in fntp c [] hc hr, textWidth_nil, Nat.add_zero]
    exact Nat.mod_eq_of_lt (Nat.lt_trans (charWidth_lt _ _) (by decide))
  · have hr : ¬ Font.inRange fntp c = true := by
      simp only [Font.inRange, Bool.and_eq_true, decide_eq_true_eq]
      exact hin
    rw [if_neg hin, textWidth_out fntp c [] hc hr, textWidth_nil]

/-- Witness for C18: in `hiFont` the string `"i"` has width 3 and `"!"` has width 0. -/
theorem getTextWidth_single_witness :
    EPD.getTextWidth hiFont [105] = 3 ∧ EPD.getTextWidth hiFont [33] = 0 ∧
    EPD.getTextWidth hiFont [105] =
      if (Font.first_char hiFont : Int) ≤ 105 ∧ (105 : Int) ≤ (Font.last_char hiFont : Int)
      then Font.charWidth hiFont ((105 : Int) - (Font.first_char hiFont : Int)).toNat else 0 :=
  ⟨by decide, by decide, getTextWidth_single hiFont 105 (by decide)⟩

/-- C19: `getTextWidth` is additive over concatenation in `size_t` arithmetic: for a
NUL-free string `a` and any string `b`,
`getTextWidth(f, a ++ b) = (getTextWidth(f, a) + getTextWidth(f, b)) mod 2^32`. The width
of the empty string is 0, and the width of a NUL-free string does not depend on the order
of its characters. -/
theorem getTextWidth_additive (fntp : List Nat) :
    (∀ a b : List Int, (∀ c ∈ a, c ≠ 0) →
      EPD.getTextWidth fntp (a ++ b) =
        (EPD.getTextWidth fntp a + EPD.getTextWidth fntp b) % 4294967296) ∧
    EPD.getTextWidth fntp [] = 0 ∧
    (∀ a b : List Int, (∀ c ∈ a, c ≠ 0) → List.Perm a b →
      EPD.getTextWidth fntp a = EPD.getTextWidth fntp b) := by
  refine ⟨?_, rfl, ?_⟩
  · intro a b ha
    rw [getTextWidth_eq, getTextWidth_eq, getTextWidth_eq, textWidth_append fntp a b ha]
    omega
  · intro a b ha hp
    rw [getTextWidth_eq, getTextWidth_eq, textWidth_perm fntp a b ha hp]

/-- Witness for C19: `"Hi" ++ "iH"` in `hiFont`. -/
theorem getTextWidth_additive_witness :
    EPD.getTextWidth hiFont ([72, 105] ++ [105, 72]) =
      (EPD.getTextWidth hiFont [72, 105] + EPD.getTextWidth hiFont [105, 72]) % 4294967296 ∧
    EPD.getTextWidth hiFont ([72, 105] ++ [105, 72]) = 18 :=
  ⟨(getTextWidth_additive hiFont).1 [72, 105] [105, 72] (by decide), by decide⟩

/-! ## The glyph bitmap predicate -/

set_option maxRecDepth 100000 in
/-- C13 holds for glyph widths 1..248 and fails for 249..255. For `width <= 248` and
`w < width` the predicate handed to `drawBitmap` returns bit `w mod 8` (least significant
bit first) of the font byte at `offset + h * ceil(width / 8) + w / 8`. For
`249 <= width <= 255` the 8-bit mask in `(width + 7) & 0xF8` cuts the row stride down to 0,
so the predicate returns bit `w mod 8` of the byte at `offset + w / 8` for every row `h`.
In `wideFont` (one glyph of width 250, 32 bytes per row, only pixel `(0, 1)` set) the
predicate is false at `(w, h) = (0, 1)`, where the font has the bit set; drawn with
`drawText` on a 320x240 panel, this glyph comes out entirely in the background colour
(250 data bytes `0xFF`). -/
theorem glyphFnc_bits :
    (∀ (fntp : List Nat) (offset width height w h : Nat), 1 ≤ width → width ≤ 248 → w < width →
      glyphFnc fntp offset width height w h =
        decide ((Font.byte fntp (offset + h * ((width + 7) / 8) + w / 8) / 2 ^ (w % 8)) % 2 = 1)) ∧
    (∀ (fntp : List Nat) (offset width height w h : Nat), 249 ≤ width → width ≤ 255 →
      w < width →
      glyphFnc fntp offset width height w h =
        decide ((Font.byte fntp (offset + w / 8) / 2 ^ (w % 8)) % 2 = 1)) ∧
    (Font.charWidth wideFont 0 = 250 ∧ Font.charOffset wideFont 0 = 12 ∧
      glyphFnc wideFont 12 250 2 0 1 = false ∧
      decide ((Font.byte wideFont (12 + 1 * ((250 + 7) / 8) + 0 / 8) / 2 ^ (0 % 8)) % 2 = 1) =
        true) ∧
    (EPD.new wideDriver 320 240 wideFont = ⟨[], some widePanel⟩ ∧
      widePanel.drawText .black 0 0 [72] .left =
        ⟨[.spiSelect] ++ (wideDriver.setAddress 0 0 319 70).trace ++
          dataEvents (List.replicate 250 0xFF) ++ [.spiUnselect], some ()⟩) :=
  ⟨fun fntp offset width height w h _ hw hcol => glyphFnc_narrow fntp offset width height w h hw hcol,
    fun fntp offset width height w h hw1 hw2 hcol =>
      glyphFnc_wide fntp offset width height w h hw1 hw2 hcol,
    by decide, rfl, by decide⟩

/-- Witness for C13: pixel `(5, 3)` of the glyph `'H'` of `hiFont` (width 6, offset 144). -/
theorem glyphFnc_bits_witness :
    glyphFnc hiFont 144 6 8 5 3 =
      decide ((Font.byte hiFont (144 + 3 * ((6 + 7) / 8) + 5 / 8) / 2 ^ (5 % 8)) % 2 = 1) ∧
    glyphFnc hiFont 144 6 8 5 3 = true :=
  ⟨glyphFnc_bits.1 hiFont 144 6 8 5 3 (by decide) (by decide) (by decide), by decide⟩

/-! ## `EPD::drawText` -/

/-- C15: vertical overflow is a no-op. If `y + glyphHeight > panel height`, `drawText`
returns at once: its run makes no HAL call at all (no chip select, no command byte, no
data byte). `drawText` assigns no member of the object, so background colour and font
reference are as before. -/
theorem drawText_vertical_overflow (e : EPD) (color : Color) (x y : Nat) (str : List Int)
    (align : Align) (hy : y + Font.height e.fntp > e.height) :
    e.drawText color x y str align = ⟨[], some ()⟩ := by
  rw [EPD.drawText, if_pos hy]
  rfl

/-- Witness for C15: text at row 65 with the 8-row font on the 72-row panel. -/
theorem drawText_vertical_overflow_witness :
    hiPanel.drawText .black 100 65 [72, 105] .center = ⟨[], some ()⟩ :=
  drawText_vertical_overflow hiPanel .black 100 65 [72, 105] .center (by decide)

/-- C12: glyph sequence of `drawText`. Let `y + glyphHeight <= panel height`, let the
glyphs of the text be its characters in `[first_char, last_char]` in text order with
their table widths `w1..wn` and offsets, `T = w1 + .. + wn` (fitting `size_t`), and
`x0 = x` for left, `max(0, x - T/2)` for centre and `max(0, x - T)` for right alignment.
Then `drawText` is the program that calls `drawBitmap` for the glyphs `1..m` in order and
does nothing else, where the `i`-th call is at horizontal position
`x0 + w1 + .. + w(i-1)`, vertical position `y`, with width `wi`, height `glyphHeight` and
the bitmap predicate of the glyph; every drawn glyph ends inside the panel
(`x0 + w1 + .. + wi <= panel width`), and if `m < n` then glyph `m + 1` does not fit
(`x0 + w1 + .. + w(m+1) > panel width`), whatever follows it. -/
theorem drawText_calls (e : EPD) (color : Color) (x y : Nat) (str : List Int) (align : Align)
    (hW : e.width < 65536) (hx : x < 65536) (hT : textWidth e.fntp str < 4294967296)
    (hy : y + Font.height e.fntp ≤ e.height) :
    e.drawText color x y str align =
      runCalls e color y (Font.height e.fntp)
        (placeGlyphs e.width (alignStart x (textWidth e.fntp str) align)
          (textGlyphs e.fntp str)) ∧
    alignStart x (textWidth e.fntp str) .left = x ∧
    alignStart x (textWidth e.fntp str) .center = x - textWidth e.fntp str / 2 ∧
    alignStart x (textWidth e.fntp str) .right = x - textWidth e.fntp str ∧
    (placeGlyphs e.width (alignStart x (textWidth e.fntp str) align)
      (textGlyphs e.fntp str)).length ≤ (textGlyphs e.fntp str).length ∧
    (∀ i, i < (placeGlyphs e.width (alignStart x (textWidth e.fntp str) align)
        (textGlyphs e.fntp str)).length →
      (placeGlyphs e.width (alignStart x (textWidth e.fntp str) align)
        (textGlyphs e.fntp str))[i]? =
          some ⟨alignStart x (textWidth e.fntp str) align +
              (((textGlyphs e.fntp str).take i).map Prod.fst).sum,
            ((textGlyphs e.fntp str).getD i (0, 0)).1,
            ((textGlyphs e.fntp str).getD i (0, 0)).2⟩ ∧
      alignStart x (textWidth e.fntp str) align +
        (((textGlyphs e.fntp str).take (i + 1)).map Prod.fst).sum ≤ e.width) ∧
    ((placeGlyphs e.width (alignStart x (textWidth e.fntp str) align)
        (textGlyphs e.fntp str)).length < (textGlyphs e.fntp str).length →
      e.width < alignStart x (textWidth e.fntp str) align +
        (((textGlyphs e.fntp str).take
          ((placeGlyphs e.width (alignStart x (textWidth e.fntp str) align)
            (textGlyphs e.fntp str)).length + 1)).map Prod.fst).sum) := by
  refine ⟨?_, rfl, rfl, rfl, placeGlyphs_length_le _ _ _, placeGlyphs_get _ _ _,
    placeGlyphs_stop _ _ _⟩
  rw [drawText_eq e color x y str align hW hy, alignX_eq e x str align hx hT]

/-- Witness for C12: `"H!i"` centred on column 100 of the 172x72 panel with `hiFont`; the
character `'!'` is outside the font. -/
theorem drawText_calls_witness :
    hiPanel.drawText .black 100 0 [72, 33, 105] .center =
      runCalls hiPanel .black 0 8 [⟨96, 6, 144⟩, ⟨102, 3, 408⟩] := by
  have h := (drawText_calls hiPanel .black 100 0 [72, 33, 105] .center (by decide) (by decide)
    (by decide) (by decide)).1
  have hl : placeGlyphs hiPanel.width
      (alignStart 100 (textWidth hiPanel.fntp [72, 33, 105]) .center)
      (textGlyphs hiPanel.fntp [72, 33, 105]) = [⟨96, 6, 144⟩, ⟨102, 3, 408⟩] := by
    decide
  rw [h, hl]
  rfl

/-- C14, as stated, fails for degenerate fonts that `setFont` accepts. With glyph height 0
(`flatFont`), `drawText(black, 0, 0, "H")` on the 172x72 panel requests the window end
`xea = uint8_t(0 - 1) = 255`; with a glyph of width 0 (`thinFont`) it requests
`yea = 172`. In both runs the fatal check of `setAddress` is reached right after the chip
select. -/
theorem drawText_degenerate_font_counterexample :
    EPD.new (SSD1606 false) 172 72 flatFont = ⟨[], some flatPanel⟩ ∧
    (flatPanel.window 0 0 6 0).xea = 255 ∧
    flatPanel.drawText .black 0 0 [72] .left = ⟨[.spiSelect], none⟩ ∧
    EPD.new (SSD1606 false) 172 72 thinFont = ⟨[], some thinPanel⟩ ∧
    (thinPanel.window 0 0 0 8).yea = 172 ∧
    thinPanel.drawText .black 0 0 [72] .left = ⟨[.spiSelect], none⟩ :=
  ⟨rfl, by decide, by decide, rfl, by decide, by decide⟩

/-- C14, amended: on an accepted panel (driver source count a multiple of 4), with a font
of glyph height at least 1, for every text whose glyphs all have width at least 1, every
`x`, `y` and alignment, `drawText` runs to completion: it is a sequence of `drawBitmap`
calls (possibly for only a part of the text, possibly none), and the window of each of
these calls passes the check of `setAddress`. -/
theorem drawText_completes (e : EPD) (color : Color) (x y : Nat) (str : List Int)
    (align : Align) (hc : e.width ≤ e.ssd.gates ∧ e.height ≤ e.ssd.sources)
    (h4 : e.ssd.sources % 4 = 0) (hfh : 1 ≤ Font.height e.fntp)
    (hgw : ∀ p ∈ textGlyphs e.fntp str, 1 ≤ p.1) :
    (e.drawText color x y str align).val = some () ∧
    ∃ calls : List GlyphCall,
      e.drawText color x y str align = runCalls e color y (Font.height e.fntp) calls ∧
      ∀ g ∈ calls,
        (e.window g.x y g.width (Font.height e.fntp)).xsa < e.ssd.sources / 4 ∧
        (e.window g.x y g.width (Font.height e.fntp)).xea < e.ssd.sources / 4 ∧
        (e.window g.x y g.width (Font.height e.fntp)).ysa < e.ssd.gates ∧
        (e.window g.x y g.width (Font.height e.fntp)).yea < e.ssd.gates := by
  have hg := e.ssd.gates_u16
  by_cases hy : y + Font.height e.fntp > e.height
  · have h0 : e.drawText color x y str align = ⟨[], some ()⟩ := by
      rw [EPD.drawText, if_pos hy]
      rfl
    refine ⟨by rw [h0], [], by rw [h0]; rfl, fun g hgm => by cases hgm⟩
  · have hy2 : y + Font.height e.fntp ≤ e.height := by omega
    have heq := drawText_eq e color x y str align (by omega) hy2
    have hall : ∀ g ∈ placeGlyphs e.width (EPD.alignX e x str align) (textGlyphs e.fntp str),
        1 ≤ g.width ∧ g.x + g.width ≤ e.width := by
      intro g hgm
      obtain ⟨h1, h2⟩ := placeGlyphs_mem _ _ _ g hgm
      exact ⟨hgw _ h2, h1⟩
    refine ⟨?_, _, heq, ?_⟩
    · rw [heq]
      exact runCalls_complete e color y _ hc h4 hfh hy2 _ hall
    · intro g hgm
      obtain ⟨h1, h2⟩ := hall g hgm
      have := window_pass e g.x y g.width (Font.height e.fntp) hc h4 h1 hfh h2 hy2
      simp only [Nat.shiftRight_eq_div_pow] at this
      exact this

/-- Witness for C14 (amended): `"Hi"` right-aligned at column 5 is clamped to column 0 and
drawn completely. -/
theorem drawText_completes_witness :
    (hiPanel.drawText .black 5 0 [72, 105] .right).val = some () :=
  (drawText_completes hiPanel .black 5 0 [72, 105] .right (by decide) (by decide) (by decide)
    (by decide)).1

set_option maxRecDepth 100000 in
/-- C16, as stated, fails: `"Hi"` (width 9) right-aligned at `x = 100` on the 172x72 panel
is drawn by two calls at columns 91 (width 6) and 97 (width 3); they cover the columns
91..99, so the rightmost drawn column is 99, not 100. -/
theorem drawText_right_counterexample :
    textWidth hiFont [72, 105] = 9 ∧
    hiPanel.drawText .black 100 0 [72, 105] .right =
      runCalls hiPanel .black 0 8 [⟨91, 6, 144⟩, ⟨97, 3, 408⟩] ∧
    covered [⟨91, 6, 144⟩, ⟨97, 3, 408⟩] 99 ∧
    ¬ covered [⟨91, 6, 144⟩, ⟨97, 3, 408⟩] 100 := by
  refine ⟨by decide, by decide, ?_, ?_⟩
  · unfold covered
    decide
  · unfold covered
    decide

/-- C16, amended: for right alignment and a text of total width `W >= 1` with `W <= x`
that fits on the panel (`x <= panel width`, `y + glyphHeight <= panel height`), `drawText`
is the sequence of `drawBitmap` calls for all glyphs of the text, and these calls cover
exactly the columns `x - W .. x - 1`: the rightmost drawn column is `x - 1`. -/
theorem drawText_right_aligned (e : EPD) (color : Color) (x y : Nat) (str : List Int)
    (hW : e.width < 65536) (hy : y + Font.height e.fntp ≤ e.height)
    (h1 : 1 ≤ textWidth e.fntp str) (hle : textWidth e.fntp str ≤ x) (hfit : x ≤ e.width) :
    e.drawText color x y str .right =
      runCalls e color y (Font.height e.fntp)
        (placeGlyphs e.width (x - textWidth e.fntp str) (textGlyphs e.fntp str)) ∧
    (placeGlyphs e.width (x - textWidth e.fntp str) (textGlyphs e.fntp str)).length =
      (textGlyphs e.fntp str).length ∧
    (∀ col, covered (placeGlyphs e.width (x - textWidth e.fntp str) (textGlyphs e.fntp str)) col ↔
      x - textWidth e.fntp str ≤ col ∧ col ≤ x - 1) ∧
    covered (placeGlyphs e.width (x - textWidth e.fntp str) (textGlyphs e.fntp str)) (x - 1) ∧
    ¬ covered (placeGlyphs e.width (x - textWidth e.fntp str) (textGlyphs e.fntp str)) x := by
  have hp := placeGlyphs_fit e.width (textGlyphs e.fntp str) (x - textWidth e.fntp str)
    (by
      show x - textWidth e.fntp str + textWidth e.fntp str ≤ e.width
      omega)
  have hcov : ∀ col,
      covered (placeGlyphs e.width (x - textWidth e.fntp str) (textGlyphs e.fntp str)) col ↔
        x - textWidth e.fntp str ≤ col ∧ col ≤ x - 1 := by
    intro col
    rw [hp.2 col]
    show _ ∧ col < x - textWidth e.fntp str + textWidth e.fntp str ↔ _
    omega
  refine ⟨?_, hp.1, hcov, (hcov (x - 1)).2 (by omega), fun h => ?_⟩
  · rw [drawText_eq e color x y str .right hW hy,
      alignX_eq e x str .right (by omega) (by omega)]
    rfl
  · have := (hcov x).1 h
    omega

/-- Witness for C16 (amended): `"Hi"` right-aligned at `x = 100`. -/
theorem drawText_right_aligned_witness :
    covered (placeGlyphs hiPanel.width (100 - textWidth hiPanel.fntp [72, 105])
      (textGlyphs hiPanel.fntp [72, 105])) (100 - 1) :=
  (drawText_right_aligned hiPanel .black 100 0 [72, 105] (by decide) (by decide) (by decide)
    (by decide) (by decide)).2.2.2.1

/-- C17: for centre alignment and a text of total width `W >= 1` with `W/2 <= x` that
fits on the panel (`x - W/2 + W <= panel width`, `y + glyphHeight <= panel height`),
`drawText` is the sequence of `drawBitmap` calls for all glyphs of the text, and these
calls cover exactly the columns `x - W/2 .. x - W/2 + W - 1`. There are `W/2` drawn
columns left of `x` and `W - W/2` from `x` rightwards; the two numbers differ by at
most 1. -/
theorem drawText_center_aligned (e : EPD) (color : Color) (x y : Nat) (str : List Int)
    (hW : e.width < 65536) (hx : x < 65536) (hy : y + Font.height e.fntp ≤ e.height)
    (h1 : 1 ≤ textWidth e.fntp str) (hle : textWidth e.fntp str / 2 ≤ x)
    (hfit : x - textWidth e.fntp str / 2 + textWidth e.fntp str ≤ e.width) :
    e.drawText color x y str .center =
      runCalls e color y (Font.height e.fntp)
        (placeGlyphs e.width (x - textWidth e.fntp str / 2) (textGlyphs e.fntp str)) ∧
    (placeGlyphs e.width (x - textWidth e.fntp str / 2) (textGlyphs e.fntp str)).length =
      (textGlyphs e.fntp str).length ∧
    (∀ col,
      covered (placeGlyphs e.width (x - textWidth e.fntp str / 2) (textGlyphs e.fntp str)) col ↔
        x - textWidth e.fntp str / 2 ≤ col ∧
          col ≤ x - textWidth e.fntp str / 2 + textWidth e.fntp str - 1) ∧
    x - (x - textWidth e.fntp str / 2) = textWidth e.fntp str / 2 ∧
    (x - textWidth e.fntp str / 2 + textWidth e.fntp str) - x =
      textWidth e.fntp str - textWidth e.fntp str / 2 ∧
    textWidth e.fntp str / 2 ≤ textWidth e.fntp str - textWidth e.fntp str / 2 ∧
    (textWidth e.fntp str - textWidth e.fntp str / 2) - textWidth e.fntp str / 2 ≤ 1 := by
  have hp := placeGlyphs_fit e.width (textGlyphs e.fntp str) (x - textWidth e.fntp str / 2) hfit
  refine ⟨?_, hp.1, fun col => ?_, by omega, by omega, by omega, by omega⟩
  · rw [drawText_eq e color x y str .center hW hy,
      alignX_eq e x str .center hx (by omega)]
    rfl
  · rw [hp.2 col]
    show _ ∧ col < x - textWidth e.fntp str / 2 + textWidth e.fntp str ↔ _
    omega

/-- Witness for C17: `"Hi"` (width 9) centred on `x = 100` covers the columns 96..104. -/
theorem drawText_center_aligned_witness :
    (covered (placeGlyphs hiPanel.width (100 - textWidth hiPanel.fntp [72, 105] / 2)
        (textGlyphs hiPanel.fntp [72, 105])) 104 ↔
      100 - textWidth hiPanel.fntp [72, 105] / 2 ≤ 104 ∧
        104 ≤ 100 - textWidth hiPanel.fntp [72, 105] / 2 +
          textWidth hiPanel.fntp [72, 105] - 1) ∧
    100 - textWidth hiPanel.fntp [72, 105] / 2 = 96 ∧
    100 - textWidth hiPanel.fntp [72, 105] / 2 + textWidth hiPanel.fntp [72, 105] - 1 = 104 :=
  ⟨(drawText_center_aligned hiPanel .black 100 0 [72, 105] (by decide) (by decide) (by decide)
    (by decide) (by decide) (by decide)).2.2.1 104, by decide, by decide⟩

/-- C20, as stated, fails in its last part: on the 172x72 panel with `hiFont`
(`'H'` of width 6, `'i'` of width 3, glyph height 8), `drawText(black, 0, 0, "Hi")` is the
two calls at x-offsets 0 and 6, but the window of each call has
`xea = (0 + 8 + 3)/4 - 1 = 1` (the 8 rows are the 4-row groups 0 and 1), not 2. -/
theorem drawText_Hi_counterexample :
    Font.height hiFont = 8 ∧ Font.charWidth hiFont (Font.index hiFont 72) = 6 ∧
    Font.charWidth hiFont (Font.index hiFont 105) = 3 ∧
    hiPanel.drawText .black 0 0 [72, 105] .left =
      runCalls hiPanel .black 0 8 [⟨0, 6, 144⟩, ⟨6, 3, 408⟩] ∧
    (0 + 8 + 3) / 4 - 1 = 1 ∧
    (hiPanel.window 0 0 6 8).xea = 1 ∧ (hiPanel.window 6 0 3 8).xea = 1 ∧
    ¬ ((hiPanel.window 0 0 6 8).xea = 2) ∧ ¬ ((hiPanel.window 6 0 3 8).xea = 2) := by
  refine ⟨by decide, by decide, by decide, ?_, by decide, by decide, by decide, by decide,
    by decide⟩
  have hl : placeGlyphs hiPanel.width (EPD.alignX hiPanel 0 [72, 105] .left)
      (textGlyphs hiPanel.fntp [72, 105]) = [⟨0, 6, 144⟩, ⟨6, 3, 408⟩] := by
    decide
  rw [drawText_eq hiPanel .black 0 0 [72, 105] .left (by decide) (by decide), hl]
  rfl

/-- C20, amended: scenario `"Hi"`. On a 172x72 panel over the SSD1606, with a font of
glyph height 8 in which `'H'` has width 6 and `'i'` has width 3,
`drawText(color, 0, 0, "Hi")` with left alignment is exactly two `drawBitmap` calls, at
x-offsets 0 and 6 (widths 6 and 3, height 8); it runs to completion, and the window of
each call has `xea = (0 + 8 + 3)/4 - 1 = 1`. -/
theorem drawText_Hi (m : Bool) (e : EPD) (color : Color) (he : e.ssd = SSD1606 m)
    (hw : e.width = 172) (hh : e.height = 72) (hfh : Font.height e.fntp = 8)
    (hH : Font.inRange e.fntp 72 = true) (hi : Font.inRange e.fntp 105 = true)
    (hwH : Font.charWidth e.fntp (Font.index e.fntp 72) = 6)
    (hwi : Font.charWidth e.fntp (Font.index e.fntp 105) = 3) :
    e.drawText color 0 0 [72, 105] .left =
      runCalls e color 0 8
        [⟨0, 6, Font.charOffset e.fntp (Font.index e.fntp 72)⟩,
         ⟨6, 3, Font.charOffset e.fntp (Font.index e.fntp 105)⟩] ∧
    (e.drawText color 0 0 [72, 105] .left).val = some () ∧
    (e.window 0 0 6 8).xea = (0 + 8 + 3) / 4 - 1 ∧ (e.window 0 0 6 8).xea = 1 ∧
    (e.window 6 0 3 8).xea = (0 + 8 + 3) / 4 - 1 ∧ (e.window 6 0 3 8).xea = 1 := by
  have hs : e.ssd.sources = 72 := by rw [he]; rfl
  have hg : e.ssd.gates = 172 := by rw [he]; rfl
  have hgl : textGlyphs e.fntp [72, 105] =
      [(6, Font.charOffset e.fntp (Font.index e.fntp 72)),
       (3, Font.charOffset e.fntp (Font.index e.fntp 105))] := by
    rw [textGlyphs_in e.fntp 72 [105] (by decide) hH, textGlyphs_in e.fntp 105 [] (by decide) hi,
      textGlyphs_nil, hwH, hwi]
  have hcalls : placeGlyphs e.width 0 (textGlyphs e.fntp [72, 105]) =
      [⟨0, 6, Font.charOffset e.fntp (Font.index e.fntp 72)⟩,
       ⟨6, 3, Font.charOffset e.fntp (Font.index e.fntp 105)⟩] := by
    rw [hgl, hw]
    rfl
  have heq : e.drawText color 0 0 [72, 105] .left =
      runCalls e color 0 8
        [⟨0, 6, Font.charOffset e.fntp (Font.index e.fntp 72)⟩,
         ⟨6, 3, Font.charOffset e.fntp (Font.index e.fntp 105)⟩] := by
    have := drawText_eq e color 0 0 [72, 105] .left (by omega) (by omega)
    rw [this, hfh]
    show runCalls e color 0 8 (placeGlyphs e.width 0 (textGlyphs e.fntp [72, 105])) = _
    rw [hcalls]
  refine ⟨heq, ?_, ?_, ?_, ?_, ?_⟩
  · rw [heq]
    apply runCalls_complete e color 0 8 (by omega) (by omega) (by decide) (by omega)
    intro g hgm
    simp only [List.mem_cons, List.mem_singleton, List.not_mem_nil, or_false] at hgm
    rcases hgm with h | h <;> subst h <;> simp <;> omega
  all_goals
    simp only [EPD.window]
    decide

/-- Witness for C20 (amended): the 172x72 panel with `hiFont`. -/
theorem drawText_Hi_witness :
    (hiPanel.drawText .black 0 0 [72, 105] .left).val = some () ∧
    (hiPanel.window 0 0 6 8).xea = 1 ∧ (hiPanel.window 6 0 3 8).xea = 1 := by
  have h := drawText_Hi false hiPanel .black rfl rfl rfl (by decide) (by decide) (by decide)
    (by decide) (by decide)
  exact ⟨h.2.1, h.2.2.2.1, h.2.2.2.2.2⟩

end EInk

/-! # Properties of the specification: large drivers and out-of-panel rectangles -/

namespace EInk

/-! ## Out-of-panel rectangles: helper lemma -/

/-- An out-of-panel rectangle whose `x + width` or `y + height` stays below the point where
the 16-bit resp. 8-bit conversion wraps around fails the check of `setAddress`. -/
theorem window_fail_SSD1606 (m : Bool) (e : EPD) (x y width height : Nat)
    (he : e.ssd = SSD1606 m) (hw : e.width = 172)
    (hout : (172 < x + width ∧ x + width ≤ 65536) ∨ (72 < y + height ∧ y + height ≤ 1024)) :
    ¬ ((e.window x y width height).xsa < e.ssd.sources >>> 2 ∧
      (e.window x y width height).xea < e.ssd.sources >>> 2 ∧
      (e.window x y width height).ysa < e.ssd.gates ∧
      (e.window x y width height).yea < e.ssd.gates) := by
  have hs : e.ssd.sources = 72 := by rw [he]; rfl
  have hg : e.ssd.gates = 172 := by rw [he]; rfl
  simp only [EPD.window, Nat.shiftRight_eq_div_pow, hs, hg, hw]
  omega

/-! ## `SSD16xx::setAddress` on a driver with more than 255 gates -/

/-- C21 fails on the code. On a driver with `gates() > 255`, `setAddress` with in-range
arguments (`xsa`, `xea` being `uint8_t` values) makes exactly these HAL calls: command
0x44, data `xsa`, `xea`; command 0x45, data low and high byte of `ysa`, low and high byte
of `yea`; command 0x4E, data `xsa`; command 0x4F, data low byte of `ysa` and then the
high byte of `yea` (not of `ysa`); command 0x24. After the RAM-Y-counter command the driver
therefore receives `ysa mod 256 + 256 * (yea / 256)`, which is `ysa` only when `ysa` and
`yea` have the same high byte. -/
theorem setAddress_trace_of_gates_gt_255 (s : SSD16xx) (xsa xea ysa yea : Nat)
    (hg : s.gates > 255) (hx1 : xsa < 256) (hx2 : xea < 256)
    (h1 : xsa < s.sources >>> 2) (h2 : xea < s.sources >>> 2)
    (h3 : ysa < s.gates) (h4 : yea < s.gates) :
    s.setAddress xsa xea ysa yea =
      ⟨[.palClearLine .dc, .spiSend [0x44], .palSetLine .dc, .spiSend [xsa], .spiSend [xea],
        .palClearLine .dc, .spiSend [0x45], .palSetLine .dc,
        .spiSend [ysa % 256], .spiSend [ysa / 256], .spiSend [yea % 256], .spiSend [yea / 256],
        .palClearLine .dc, .spiSend [0x4E], .palSetLine .dc, .spiSend [xsa],
        .palClearLine .dc, .spiSend [0x4F], .palSetLine .dc,
        .spiSend [ysa % 256], .spiSend [yea / 256],
        .palClearLine .dc, .spiSend [0x24], .palSetLine .dc], some ()⟩ := by
  have hgu := s.gates_u16
  have hy1 : (ysa >>> 8) % 256 = ysa / 256 := by
    rw [Nat.shiftRight_eq_div_pow]
    exact Nat.mod_eq_of_lt (by omega)
  have hy2 : (yea >>> 8) % 256 = yea / 256 := by
    rw [Nat.shiftRight_eq_div_pow]
    exact Nat.mod_eq_of_lt (by omega)
  simp [SSD16xx.setAddress, osalDbgAssert, h1, h2, h3, h4, hg, Run.bind_eq, Run.bind_ok,
    sendCmd_eq, sendData_eq, cmdEvents, Run.pure_eq, Nat.mod_eq_of_lt hx1, Nat.mod_eq_of_lt hx2,
    hy1, hy2, SSD16xx_RASTXSE, SSD16xx_RASTYSE, SSD16xx_RASTXAC, SSD16xx_RASTYAC, SSD16xx_RAMWR]

/-- Witness for C21: the window of `fillDisplay` on the 320x240 panel, `ysa = 319` and
`yea = 0`. After command 0x45 the start value is written as `0x3F, 0x01`; after command
0x4F the bytes are `0x3F, 0x00`, so the Y counter is set to 63 instead of 319. -/
theorem setAddress_trace_of_gates_gt_255_witness :
    widePanel.fillWindow = ⟨0, 59, 319, 0⟩ ∧
    319 % 256 = 63 ∧ 319 / 256 = 1 ∧
    wideDriver.setAddress 0 59 319 0 =
      ⟨[.palClearLine .dc, .spiSend [0x44], .palSetLine .dc, .spiSend [0], .spiSend [59],
        .palClearLine .dc, .spiSend [0x45], .palSetLine .dc,
        .spiSend [63], .spiSend [1], .spiSend [0], .spiSend [0],
        .palClearLine .dc, .spiSend [0x4E], .palSetLine .dc, .spiSend [0],
        .palClearLine .dc, .spiSend [0x4F], .palSetLine .dc,
        .spiSend [63], .spiSend [0],
        .palClearLine .dc, .spiSend [0x24], .palSetLine .dc], some ()⟩ :=
  ⟨by decide, by decide, by decide,
    setAddress_trace_of_gates_gt_255 wideDriver 0 59 319 0 (by decide) (by decide) (by decide)
      (by decide) (by decide) (by decide) (by decide)⟩

/-! ## Out-of-panel rectangles -/

/-- C22 fails on the code. On the 172x72 panel over the SSD1606 two out-of-panel
rectangles get through the check of `setAddress`. `drawFilledRect(black, 0, 1024, 1, 1)`:
the `uint8_t` conversions turn `xsa = 256` and `xea = 256` into 0, the window
`(0, 0, 171, 171)` passes, and one data byte is written into the RAM of rows 0..3.
`drawFilledRect(black, 100, 0, 65500, 1)`: the `uint16_t` conversion turns
`yea = 171 - 65599` into 108, the window `(0, 0, 71, 108)` passes, and 65500 data bytes are
sent. Out-of-panel rectangles are caught, with nothing sent after the chip select, as long
as the conversions cannot wrap: when `172 < x + width <= 65536` or
`72 < y + height <= 1024`. -/
theorem drawFilledRect_out_of_panel :
    (panel172x72.window 0 1024 1 1 = ⟨0, 0, 171, 171⟩ ∧
      panel172x72.drawFilledRect .black 0 1024 1 1 =
        ⟨[.spiSelect] ++ (panel172x72.ssd.setAddress 0 0 171 171).trace ++
          [.spiSend [0x3F]] ++ [.spiUnselect], some ()⟩) ∧
    (panel172x72.window 100 0 65500 1 = ⟨0, 0, 71, 108⟩ ∧
      panel172x72.drawFilledRect .black 100 0 65500 1 =
        ⟨[.spiSelect] ++ (panel172x72.ssd.setAddress 0 0 71 108).trace ++
          dataEvents (bitmapBytes .black .white (fun _ _ _ _ => true) 0 65500 1) ++
          [.spiUnselect], some ()⟩ ∧
      (bitmapBytes .black .white (fun _ _ _ _ => true) 0 65500 1).length = 65500) ∧
    (∀ (m : Bool) (e : EPD) (color : Color) (x y width height : Nat),
      e.ssd = SSD1606 m → e.width = 172 →
      ((172 < x + width ∧ x + width ≤ 65536) ∨ (72 < y + height ∧ y + height ≤ 1024)) →
      e.drawFilledRect color x y width height =
        ⟨(if m then [.spiAcquireBus, .spiStart] else []) ++ [.spiSelect], none⟩) := by
  refine ⟨⟨by decide, by decide⟩, ⟨by decide, ?_, ?_⟩, ?_⟩
  · have hwin : panel172x72.window 100 0 65500 1 = ⟨0, 0, 71, 108⟩ := by decide
    have hpass : (panel172x72.window 100 0 65500 1).xsa < panel172x72.ssd.sources >>> 2 ∧
        (panel172x72.window 100 0 65500 1).xea < panel172x72.ssd.sources >>> 2 ∧
        (panel172x72.window 100 0 65500 1).ysa < panel172x72.ssd.gates ∧
        (panel172x72.window 100 0 65500 1).yea < panel172x72.ssd.gates := by
      decide
    rw [EPD.drawFilledRect,
      drawBitmap_of_pass panel172x72 .black 100 0 65500 1 _ (by decide) hpass, hwin]
    rfl
  · rw [bitmapBytes_length]
    rfl
  · intro m e color x y width height he hw hout
    have hm : e.ssd.mutualExclusion = m := by rw [he]; rfl
    rw [EPD.drawFilledRect, drawBitmap_of_fail e color x y width height _
      (window_fail_SSD1606 m e x y width height he hw hout), hm]

/-- Witness for C22: the out-of-panel rectangle `(0, 0, 1, 100)` is caught. -/
theorem drawFilledRect_out_of_panel_witness :
    panel172x72.drawFilledRect .black 0 0 1 100 = ⟨[.spiSelect], none⟩ :=
  drawFilledRect_out_of_panel.2.2 false panel172x72 .black 0 0 1 100 rfl rfl (by decide)

end EInk
